import Mathlib

set_option maxHeartbeats 1000000

/-! A shallow embedding of lookdevtools/maya/surfacing_projects/__init__.py.
Maya's scene is modelled as a list of nodes (id, name, node type, dynamic
attributes, set members, transform parent) together with the list of
partition-plug connections.  Each pymel call of the source becomes a function
on this state; a python exception escaping a function is modelled as
Option.none.  Functions keep the names of the python functions they embed. -/

/-! Node types appearing in the source: objectSet grouping nodes, partition
routing nodes, transforms, mesh shapes, and a catch-all for anything else. -/

inductive NType
  | objectSet
  | partition
  | transform
  | mesh
  | other
deriving DecidableEq, Repr

structure Node where
  nid : Nat
  name : String
  ntype : NType
  attrs : List (String × String)
  members : List Nat
  parent : Option Nat
deriving DecidableEq, Repr

structure Scene where
  nodes : List Node
  nextId : Nat
  conns : List (Nat × Nat)
deriving DecidableEq, Repr

/-- Modelled from the spec: the marker-attribute name for surfacing projects.
The constants module (lookdevtools.common.constants) is not under src; the
spec describes Projects as grouping nodes carrying a marker attribute. -/
def ATTR_SURFACING_PROJECT : String := "surfacing_project"

/-- Modelled from the spec: the marker-attribute name for surfacing objects,
distinct from the project marker (constants module absent from src). -/
def ATTR_SURFACING_OBJECT : String := "surfacing_object"

/-- The root marker attribute and root node name, a literal in the source. -/
def SURFACING_ROOT : String := "surfacing_root"

/-- The partition marker attribute and partition node name, a literal in the
source. -/
def SURFACING_PARTITION : String := "surfacing_partition"

/-! Scene primitives standing for the pymel calls used by the source. -/

/-- pm.PyNode lookup by node id: the first node with the given id. -/
def findNode (s : Scene) (i : Nat) : Option Node :=
  s.nodes.find? (fun n => decide (n.nid = i))

/-- node.hasAttr(a). -/
def hasAttr (n : Node) (a : String) : Bool :=
  n.attrs.any (fun p => decide (p.1 = a))

/-- pm.ls(type=t). -/
def lsType (s : Scene) (t : NType) : List Node :=
  s.nodes.filter (fun n => decide (n.ntype = t))

/-- Apply f to every node with the given id. -/
def updateNode (s : Scene) (i : Nat) (f : Node → Node) : Scene :=
  { s with nodes := s.nodes.map (fun n => if n.nid = i then f n else n) }

/-- pm.createNode(t, name=nm): appends a fresh node and returns its id. -/
def createNode (s : Scene) (t : NType) (nm : String) : Scene × Nat :=
  ({ s with
      nodes := s.nodes ++ [{ nid := s.nextId, name := nm, ntype := t,
                             attrs := [], members := [], parent := none }],
      nextId := s.nextId + 1 },
   s.nextId)

/-- Replace the value stored under key a, or append the key. -/
def setAttrList (l : List (String × String)) (a v : String) :
    List (String × String) :=
  if l.any (fun p => decide (p.1 = a)) then
    l.map (fun p => if p.1 = a then (a, v) else p)
  else l ++ [(a, v)]

/-- node.setAttr(a, v, force=True): creates the attribute when missing. -/
def setAttrForce (s : Scene) (i : Nat) (a v : String) : Scene :=
  updateNode s i (fun n => { n with attrs := setAttrList n.attrs a v })

/-- node.setAttr(a, v) without force: raises when the attribute is missing. -/
def setAttr (s : Scene) (i : Nat) (a v : String) : Option Scene :=
  match findNode s i with
  | some n => if hasAttr n a then some (setAttrForce s i a v) else none
  | none => none

/-- node.rename(nm). -/
def renameNode (s : Scene) (i : Nat) (nm : String) : Scene :=
  updateNode s i (fun n => { n with name := nm })

/-- pm.parent(node, world=True). -/
def parentToWorld (s : Scene) (i : Nat) : Scene :=
  updateNode s i (fun n => { n with parent := none })

/-- objectSet.add(member): set membership, no duplicates. -/
def addMember (s : Scene) (setId memId : Nat) : Scene :=
  updateNode s setId (fun n =>
    if n.members.contains memId then n else { n with members := n.members ++ [memId] })

/-- objectSet.removeMembers([member]). -/
def removeMember (s : Scene) (setId memId : Nat) : Scene :=
  updateNode s setId (fun n =>
    { n with members := n.members.filter (fun m => decide (m ≠ memId)) })

/-- pm.delete(node): removes the node, every set membership pointing at it,
and every connection touching it. -/
def deleteNode (s : Scene) (i : Nat) : Scene :=
  { nodes := (s.nodes.filter (fun n => decide (n.nid ≠ i))).map
      (fun n => { n with members := n.members.filter (fun m => decide (m ≠ i)) }),
    nextId := s.nextId,
    conns := s.conns.filter (fun c => decide (c.1 ≠ i) && decide (c.2 ≠ i)) }

/-- partition.sets.disconnect(): drops every connection into the partition. -/
def disconnectSets (s : Scene) (i : Nat) : Scene :=
  { s with conns := s.conns.filter (fun c => decide (c.2 ≠ i)) }

/-- pm.connectAttr("obj.partition", part.sets, na=True): only objectSet nodes
carry the default partition plug; on any other node the call raises. -/
def connectPartitionPlug (s : Scene) (srcId dstId : Nat) : Option Scene :=
  match findNode s srcId with
  | some n =>
    if n.ntype = NType.objectSet then
      some { s with conns := s.conns ++ [(srcId, dstId)] }
    else none
  | none => none

/-- objectSet.members(): the live member nodes of a set. -/
def membersOf (s : Scene) (i : Nat) : List Node :=
  match findNode s i with
  | some n => n.members.filterMap (findNode s)
  | none => []

/-- str(node): its current name. -/
def nameOf (s : Scene) (i : Nat) : String :=
  match findNode s i with
  | some n => n.name
  | none => ""

/-- Python " or default" semantics of the name kwargs: None or "" fall back. -/
def orDefault (name : Option String) (dflt : String) : String :=
  match name with
  | none => dflt
  | some n => if n = "" then dflt else n

/-! The repository functions, translated one to one from the source. -/

/-- Nodes found by get_project_root: objectSets carrying the root marker. -/
def rootNodes (s : Scene) : List Node :=
  (lsType s NType.objectSet).filter (fun n => hasAttr n SURFACING_ROOT)

/-- create_project_root_node of the source. -/
def create_project_root_node (s : Scene) : Scene × Nat :=
  let r := createNode s NType.objectSet SURFACING_ROOT
  (setAttrForce r.1 r.2 SURFACING_ROOT "", r.2)

/-- get_project_root of the source: zero marked roots creates one, more than
one raises, exactly one is returned. -/
def get_project_root (s : Scene) : Option (Scene × Nat) :=
  match rootNodes s with
  | [] => some (create_project_root_node s)
  | [r] => some (s, r.nid)
  | _ => none

/-- create_project_root of the source.  The condition
if not get_project_root(): first runs get_project_root (which creates the
root when missing) and then tests truthiness of the returned PyNode, which is
always truthy, so the else branch calls get_project_root a second time. -/
def create_project_root (s : Scene) : Option (Scene × Nat) := do
  let r ← get_project_root s
  get_project_root r.1

/-- get_projects of the source. -/
def get_projects (s : Scene) : List Node :=
  (lsType s NType.objectSet).filter (fun n => hasAttr n ATTR_SURFACING_PROJECT)

/-- is_project of the source. -/
def is_project (n : Node) : Bool :=
  hasAttr n ATTR_SURFACING_PROJECT

/-- is_surfacing_object of the source. -/
def is_surfacing_object (n : Node) : Bool :=
  hasAttr n ATTR_SURFACING_OBJECT

/-- get_objects of the source: the members of a surfacing project, an empty
list for anything that is not a project. -/
def get_objects (s : Scene) (pid : Nat) : List Node :=
  match findNode s pid with
  | some p => if is_project p then p.members.filterMap (findNode s) else []
  | none => []

/-- create_object of the source; also returns the id of the created set. -/
def create_object (s : Scene) (projectId : Nat) (name : Option String) :
    Scene × Nat :=
  let nm := orDefault name "object"
  let r := createNode s NType.objectSet nm
  let s1 := setAttrForce r.1 r.2 ATTR_SURFACING_OBJECT ""
  (addMember s1 projectId r.2, r.2)

/-- The partition nodes carrying the surfacing_partition marker. -/
def markedPartitions (s : Scene) : List Node :=
  (lsType s NType.partition).filter (fun n => hasAttr n SURFACING_PARTITION)

/-- The delete loop of update_partition: disconnect and delete every marked
partition. -/
def deleteMarkedPartitions (s : Scene) : Scene :=
  (markedPartitions s).foldl (fun s p => deleteNode (disconnectSets s p.nid) p.nid) s

/-- The connect loop of update_partition: one connectAttr call per member of
every surfacing project. -/
def connectObjects (s : Scene) (partId : Nat) : Option Scene :=
  (get_projects s).foldlM (fun s2 p =>
    (get_objects s2 p.nid).foldlM (fun s3 o =>
      connectPartitionPlug s3 o.nid partId) s2) s

/-- update_partition of the source. -/
def update_partition (s : Scene) : Option Scene := do
  let s1 := deleteMarkedPartitions s
  let r := createNode s1 NType.partition SURFACING_PARTITION
  let s2 := setAttrForce r.1 r.2 SURFACING_PARTITION ""
  connectObjects s2 r.2

/-- create_project of the source; note the unconditional create_object call
before the project is added to the root. -/
def create_project (s : Scene) (name : Option String) : Option (Scene × Nat) := do
  let nm := orDefault name "project"
  let r := createNode s NType.objectSet nm
  let s1 := setAttrForce r.1 r.2 ATTR_SURFACING_PROJECT ""
  let s2 := (create_object s1 r.2 none).1
  let rt ← get_project_root s2
  let s3 := addMember rt.1 rt.2 r.2
  let s4 ← update_partition s3
  pure (s4, r.2)

/-- member.listRelatives(type="mesh"): direct children of mesh type. -/
def hasMeshChild (s : Scene) (i : Nat) : Bool :=
  s.nodes.any (fun n => decide (n.parent = some i) && decide (n.ntype = NType.mesh))

/-- The innermost loop of remove_invalid_members: prune the members of one
surfacing object set. -/
def pruneObjectMembers (s : Scene) (oid : Nat) : Scene :=
  (membersOf s oid).foldl (fun s m =>
    if decide (m.ntype ≠ NType.transform) then removeMember s oid m.nid
    else if !(hasMeshChild s m.nid) then removeMember s oid m.nid
    else s) s

/-- remove_invalid_members of the source. -/
def remove_invalid_members (s : Scene) : Option Scene := do
  let rt ← get_project_root s
  let s1 := (membersOf rt.1 rt.2).foldl (fun s m =>
    if decide (m.ntype ≠ NType.objectSet) then removeMember s rt.2 m.nid else s) rt.1
  let s2 := (get_projects s1).foldl (fun s p =>
    (get_objects s p.nid).foldl (fun s o =>
      if decide (o.ntype ≠ NType.objectSet) then removeMember s p.nid o.nid
      else pruneObjectMembers s o.nid) s) s1
  pure s2

/-- name.replace of the source, dropping every disallowed character. -/
def stripUnderscores (nm : String) : String :=
  String.mk (nm.data.filter (fun c => decide (c ≠ '_')))

/-- The membership test invalid_character in name. -/
def hasUnderscore (nm : String) : Bool :=
  nm.data.any (fun c => decide (c = '_'))

/-- One rename step of remove_invalid_characters on the node with id i. -/
def renameStep (s : Scene) (i : Nat) : Scene :=
  match findNode s i with
  | some n =>
    if hasUnderscore n.name then renameNode s i (stripUnderscores n.name) else s
  | none => s

/-- remove_invalid_characters of the source. -/
def remove_invalid_characters (s : Scene) : Option Scene := do
  let rt ← get_project_root s
  let s1 := (get_projects rt.1).foldl (fun s p =>
    let s2 := renameStep s p.nid
    (get_objects s2 p.nid).foldl (fun s o => renameStep s o.nid) s2) rt.1
  pure s1

/-- update_mesh_attributes of the source: the project and object setAttr calls
are without force (the marker must already exist), the member ones use
force=True. -/
def update_mesh_attributes (s : Scene) : Option Scene :=
  (get_projects s).foldlM (fun s p => do
    let s1 ← setAttr s p.nid ATTR_SURFACING_PROJECT (nameOf s p.nid)
    (get_objects s1 p.nid).foldlM (fun s2 o => do
      let s3 ← setAttr s2 o.nid ATTR_SURFACING_OBJECT (nameOf s2 o.nid)
      (membersOf s3 o.nid).foldlM (fun s4 m => do
        let s5 := setAttrForce s4 m.nid ATTR_SURFACING_PROJECT (nameOf s4 p.nid)
        pure (setAttrForce s5 m.nid ATTR_SURFACING_OBJECT (nameOf s5 o.nid))) s3) s1) s

/-- validate_scene of the source. -/
def validate_scene (s : Scene) : Option Scene := do
  let s1 ← remove_invalid_characters s
  let s2 ← remove_invalid_members s1
  let s3 ← update_partition s2
  update_mesh_attributes s3

/-- surfacingInit of the source.  The source line if not root.members: reads
the bound method members without calling it; in Python a bound method is
always truthy, so the branch creating the default project and object below it
never executes and the function reduces to root creation plus validation. -/
def surfacingInit (s : Scene) : Option Scene := do
  let r ← create_project_root s
  validate_scene r.1

/-- Modelled from the spec: the scene initializer as the spec and the
function's own docstring describe it, used only to compare against the source
behaviour.  When the root set has no members it creates a surfacing project
named project holding a surfacing object named default_object, then runs the
validation. -/
def surfacingInitSpec (s : Scene) : Option Scene := do
  let r ← create_project_root s
  let s1 ←
    (if (membersOf r.1 r.2).isEmpty then do
        let pr ← create_project r.1 (some "project")
        pure (create_object pr.1 pr.2 (some "default_object")).1
      else pure r.1)
  validate_scene s1

/-- Iterated initializer runs for claim C1. -/
def iterInit : Nat → Scene → Option Scene
  | 0, s => some s
  | n + 1, s => (surfacingInit s).bind (iterInit n)

/-- merge_surfacing_object of the source.  pm.polyUnite is abstracted as the
creation of one fresh transform carrying the merged geometry; the except
BaseException handler returning False is the none result.  The only raising
statement reachable in the try block is members[0] on an empty member list
(and member access on a vanished node). -/
def merge_surfacing_object (s : Scene) (oid : Nat) : Scene × Option Nat :=
  match findNode s oid with
  | none => (s, none)
  | some objNode =>
    let mems := membersOf s oid
    let geoName := objNode.name ++ "_geo"
    if 1 < mems.length then
      let r := createNode s NType.transform geoName
      (r.1, some r.2)
    else
      match mems with
      | [m] => (parentToWorld (renameNode s m.nid geoName) m.nid, some m.nid)
      | _ => (s, none)

/-! The export pipeline.  Its external collaborators (utils, qtutils, the
maya module, the subdivision constant) are not under src. -/

/-- Modelled from the spec: the external collaborators of export_project.
utils.is_directory checks a path, qtutils.get_folder_path is the interactive
folder prompt returning a directory path or a falsy value, maya.unsaved_scene
and maya.save_scene_dialog drive the unsaved-changes check, and
SURFACING_SUBDIV_ITERATIONS is the subdivision constant. -/
structure Env where
  isDirectory : String → Bool
  promptFolder : String
  unsavedScene : Bool
  userSaves : Bool
  subdivIterations : Nat

/-- Observable file-system and host effects of the export pipeline. -/
inductive FxEvent
  | saveScene
  | abcExport (rootNames : List String) (file : String)
  | mkdir (dir : String)
  | openScene
deriving DecidableEq, Repr

/-- The effects a claim counts as export file writes: an invocation of the
interchange exporter or creation of the per-object export directory. -/
def isExportWrite : FxEvent → Bool
  | FxEvent.abcExport _ _ => true
  | FxEvent.mkdir _ => true
  | _ => false

/-- check_scene_state of the source: an unsaved scene is saved when the user
agrees and raises ValueError otherwise. -/
def check_scene_state (env : Env) : Option (List FxEvent) :=
  if env.unsavedScene then
    if env.userSaves then some [FxEvent.saveScene] else none
  else some []

/-- abc_export of the source: writes only when both the geometry list and the
file path are truthy. -/
def abc_export (geoList : List String) (filePath : String) : List FxEvent :=
  if !geoList.isEmpty && decide (filePath ≠ "") then
    [FxEvent.abcExport geoList filePath]
  else []

/-- The merge loop of export_project: merge each object, keeping the results
of the merges that did not return the False sentinel. -/
def mergeObjects : Scene → List Node → Scene × List Nat
  | s, [] => (s, [])
  | s, o :: rest =>
    match merge_surfacing_object s o.nid with
    | (s1, some g) =>
      let r := mergeObjects s1 rest
      (r.1, g :: r.2)
    | (s1, none) => mergeObjects s1 rest

/-- is_project lifted to a node id. -/
def isProjectAt (s : Scene) (i : Nat) : Bool :=
  match findNode s i with
  | some n => is_project n
  | none => false

/-- The part of export_project after the scene-state check, which contains no
raising call: folder resolution, the merge loop, and the conditional exports.
pm.sceneName, polySmooth and the final pm.openFile reload are host effects
outside the scene-graph model; the reload is recorded as an openScene event. -/
def export_project_rest (env : Env) (s : Scene) (pid : Nat)
    (single_export : Bool) (folder_path : Option String) (evs0 : List FxEvent) :
    Scene × List FxEvent :=
  let folder :=
    match folder_path with
    | none => env.promptFolder
    | some f => if f = "" then env.promptFolder else f
  let tailEvs : List FxEvent := if single_export then [FxEvent.openScene] else []
  if env.isDirectory folder && isProjectAt s pid then
    let r := mergeObjects s (get_objects s pid)
    let s1 := r.1
    let geoIds := r.2
    if geoIds.isEmpty then
      (s1, evs0 ++ tailEvs)
    else
      let exportFile := folder ++ "/" ++ nameOf s1 pid ++ ".abc"
      let evs1 := abc_export (geoIds.map (nameOf s1)) exportFile
      let dir := folder ++ "/" ++ nameOf s1 pid
      let evs3 := geoIds.foldl (fun acc g =>
        acc ++ abc_export [nameOf s1 g] (dir ++ "/" ++ nameOf s1 g ++ ".abc")) []
      (s1, evs0 ++ evs1 ++ [FxEvent.mkdir dir] ++ evs3 ++ tailEvs)
  else
    (s, evs0 ++ tailEvs)

/-- export_project of the source: the raising scene-state check for a single
export, followed by the rest. -/
def export_project (env : Env) (s : Scene) (pid : Nat)
    (single_export : Bool) (folder_path : Option String) :
    Option (Scene × List FxEvent) := do
  let evs0 ← if single_export then check_scene_state env else some []
  pure (export_project_rest env s pid single_export folder_path evs0)

/-! Well-formedness of a scene: distinct node ids, and every id stored
anywhere is below the allocation counter. -/

def SceneWF (s : Scene) : Prop :=
  (s.nodes.map Node.nid).Nodup ∧
  (∀ n ∈ s.nodes, n.nid < s.nextId) ∧
  (∀ n ∈ s.nodes, ∀ m ∈ n.members, m < s.nextId) ∧
  (∀ n ∈ s.nodes, ∀ j, n.parent = some j → j < s.nextId) ∧
  (∀ c ∈ s.conns, c.1 < s.nextId ∧ c.2 < s.nextId)

instance (s : Scene) : Decidable (SceneWF s) := by
  unfold SceneWF
  infer_instance

/-! The name-level observation of a scene: everything Maya shows the user
(names, types, attributes, memberships, hierarchy and connections by name),
forgetting the internal allocation ids. -/

structure NodeView where
  name : String
  ntype : NType
  attrs : List (String × String)
  memberNames : List String
  parentName : Option String
deriving DecidableEq, Repr

def viewNode (s : Scene) (n : Node) : NodeView :=
  { name := n.name, ntype := n.ntype, attrs := n.attrs,
    memberNames := n.members.filterMap (fun i => (findNode s i).map Node.name),
    parentName := n.parent.bind (fun i => (findNode s i).map Node.name) }

def observe (s : Scene) : List NodeView × List (String × String) :=
  (s.nodes.map (viewNode s),
   s.conns.map (fun c => (nameOf s c.1, nameOf s c.2)))

/-- The object ids connected by update_partition, in connection order: the
members of every surfacing project, one entry per membership. -/
def objectIdList (s : Scene) : List Nat :=
  (get_projects s).flatMap (fun p => (get_objects s p.nid).map Node.nid)

/-- The empty scene. -/
def sceneEmpty : Scene := { nodes := [], nextId := 0, conns := [] }

/-! Basic lemmas about the scene primitives. -/

theorem findNode_nid {s : Scene} {i : Nat} {n : Node} (h : findNode s i = some n) :
    n.nid = i := by
  unfold findNode at h
  simpa using List.find?_some h

theorem findNode_mem {s : Scene} {i : Nat} {n : Node} (h : findNode s i = some n) :
    n ∈ s.nodes := by
  unfold findNode at h
  exact List.mem_of_find?_eq_some h

theorem wf_fresh {s : Scene} (hwf : SceneWF s) : ∀ m ∈ s.nodes, m.nid ≠ s.nextId :=
  fun m hm => Nat.ne_of_lt (hwf.2.1 m hm)

theorem map_guard_id (l : List Node) (k : Nat) (f : Node → Node)
    (h : ∀ n ∈ l, n.nid ≠ k) :
    l.map (fun n => if n.nid = k then f n else n) = l := by
  rw [List.map_congr_left (g := id), List.map_id]
  intro n hn
  simp [h n hn]

theorem findNode_append_new {l : List Node} {N : Node} {k : Nat} {c : List (Nat × Nat)}
    (h : ∀ n ∈ l, n.nid ≠ N.nid) :
    findNode { nodes := l ++ [N], nextId := k, conns := c } N.nid = some N := by
  unfold findNode
  rw [List.find?_append, List.find?_eq_none.2 (fun a ha => by simp [h a ha])]
  simp

theorem findNode_append_other {l : List Node} {N : Node} {k : Nat} {c e : List (Nat × Nat)}
    {d : Nat} {i : Nat} (h : N.nid ≠ i) :
    findNode { nodes := l ++ [N], nextId := k, conns := c } i =
      findNode { nodes := l, nextId := d, conns := e } i := by
  unfold findNode
  rw [List.find?_append]
  cases hl : l.find? (fun n => decide (n.nid = i)) with
  | some a => rfl
  | none => simp [h]

theorem findNode_updateNode (s : Scene) (i j : Nat) (f : Node → Node)
    (hf : ∀ x, (f x).nid = x.nid) :
    findNode (updateNode s i f) j =
      (findNode s j).map (fun n => if n.nid = i then f n else n) := by
  unfold findNode updateNode
  rw [List.find?_map]
  have hp : ((fun n => decide (n.nid = j)) ∘ fun n => if n.nid = i then f n else n) =
      (fun n : Node => decide (n.nid = j)) := by
    funext n
    by_cases hn : n.nid = i <;> simp [hn, hf]
  rw [hp]

theorem membersOf_findNode {s : Scene} {i : Nat} {m : Node}
    (h : m ∈ membersOf s i) : findNode s m.nid = some m := by
  unfold membersOf at h
  cases hf : findNode s i with
  | none => rw [hf] at h; simp at h
  | some n =>
    rw [hf] at h
    obtain ⟨j, _, hjf⟩ := List.mem_filterMap.1 h
    rwa [findNode_nid hjf]

/-! Shapes of the four marked nodes the source creates. -/

def rootNodeAt (k : Nat) : Node :=
  { nid := k, name := SURFACING_ROOT, ntype := NType.objectSet,
    attrs := [(SURFACING_ROOT, "")], members := [], parent := none }

def partNodeAt (k : Nat) : Node :=
  { nid := k, name := SURFACING_PARTITION, ntype := NType.partition,
    attrs := [(SURFACING_PARTITION, "")], members := [], parent := none }

def projNodeAt (k : Nat) (nm : String) : Node :=
  { nid := k, name := nm, ntype := NType.objectSet,
    attrs := [(ATTR_SURFACING_PROJECT, "")], members := [], parent := none }

def objNodeAt (k : Nat) (nm : String) : Node :=
  { nid := k, name := nm, ntype := NType.objectSet,
    attrs := [(ATTR_SURFACING_OBJECT, "")], members := [], parent := none }

/-- The attribute-less node shape produced by a bare createNode call. -/
def plainNodeAt (k : Nat) (nm : String) (t : NType) : Node :=
  { nid := k, name := nm, ntype := t, attrs := [], members := [], parent := none }

/-- The node shape produced by a createNode plus marker setAttr pair. -/
def markedNodeAt (k : Nat) (nm : String) (t : NType) (a v : String) : Node :=
  { nid := k, name := nm, ntype := t, attrs := [(a, v)], members := [],
    parent := none }

theorem setAttrForce_createNode (s : Scene) (t : NType) (nm a v : String)
    (hwf : SceneWF s) :
    setAttrForce (createNode s t nm).1 (createNode s t nm).2 a v =
      { nodes := s.nodes ++ [markedNodeAt s.nextId nm t a v],
        nextId := s.nextId + 1, conns := s.conns } := by
  unfold createNode setAttrForce updateNode
  simp only [List.map_append]
  rw [map_guard_id _ _ _ (wf_fresh hwf)]
  simp [setAttrList, markedNodeAt]

theorem create_project_root_node_eq (s : Scene) (hwf : SceneWF s) :
    create_project_root_node s =
      ({ nodes := s.nodes ++ [rootNodeAt s.nextId],
         nextId := s.nextId + 1, conns := s.conns }, s.nextId) := by
  show (setAttrForce (createNode s NType.objectSet SURFACING_ROOT).1
      (createNode s NType.objectSet SURFACING_ROOT).2 SURFACING_ROOT "",
      (createNode s NType.objectSet SURFACING_ROOT).2) = _
  rw [setAttrForce_createNode s _ _ _ _ hwf]
  rfl

/-! Lemmas about the node filters. -/

theorem mem_rootNodes {s : Scene} {n : Node} :
    n ∈ rootNodes s ↔ n ∈ s.nodes ∧ n.ntype = NType.objectSet ∧
      hasAttr n SURFACING_ROOT = true := by
  simp only [rootNodes, lsType, List.mem_filter, decide_eq_true_eq]
  tauto

theorem rootNodes_shape (l₁ l₂ : List Node) (k k' k'' : Nat)
    (c c' c'' : List (Nat × Nat)) :
    rootNodes { nodes := l₁ ++ l₂, nextId := k, conns := c } =
      rootNodes { nodes := l₁, nextId := k', conns := c' } ++
      rootNodes { nodes := l₂, nextId := k'', conns := c'' } := by
  simp [rootNodes, lsType, List.filter_append]

theorem rootNodes_nodes (s : Scene) (k : Nat) (c : List (Nat × Nat)) :
    rootNodes { nodes := s.nodes, nextId := k, conns := c } = rootNodes s := by
  simp [rootNodes, lsType]

/-! Claim C3: behaviour of get_project_root. -/

/-- Claim C3: get_project_root raises exactly when more than one root-marked
grouping node exists; with zero it creates and returns a fresh marked root,
leaving exactly one in the scene, and with exactly one it returns that node
on the unchanged scene. -/
theorem get_project_root_spec (s : Scene) (hwf : SceneWF s) :
    (get_project_root s = none ↔ 1 < (rootNodes s).length) ∧
    ((rootNodes s).length = 0 →
      ∃ s' i, get_project_root s = some (s', i) ∧
        (∀ m ∈ s.nodes, m.nid ≠ i) ∧
        (∃ n, findNode s' i = some n ∧ hasAttr n SURFACING_ROOT = true ∧
          n.ntype = NType.objectSet) ∧
        (rootNodes s').length = 1) ∧
    (∀ r, rootNodes s = [r] → get_project_root s = some (s, r.nid)) := by
  refine ⟨?_, ?_, ?_⟩
  · unfold get_project_root
    cases h : rootNodes s with
    | nil => simp [h]
    | cons a t =>
      cases t with
      | nil => simp
      | cons b t' => simp
  · intro h0
    have hnil : rootNodes s = [] := List.length_eq_zero.1 h0
    refine ⟨(create_project_root_node s).1, s.nextId, ?_, wf_fresh hwf, ?_, ?_⟩
    · unfold get_project_root
      rw [hnil]
      rw [create_project_root_node_eq s hwf]
    · rw [create_project_root_node_eq s hwf]
      exact ⟨rootNodeAt s.nextId, findNode_append_new (N := rootNodeAt s.nextId)
        (wf_fresh hwf), rfl, rfl⟩
    · rw [create_project_root_node_eq s hwf]
      rw [rootNodes_shape s.nodes [rootNodeAt s.nextId] _ s.nextId s.nextId
        s.conns s.conns s.conns]
      rw [rootNodes_nodes s]
      rw [hnil]
      rfl
  · intro r hr
    unfold get_project_root
    rw [hr]

/-- A one-root scene used to witness claim C3. -/
def rootNode0 : Node :=
  { nid := 0, name := "surfacing_root", ntype := NType.objectSet,
    attrs := [("surfacing_root", "")], members := [], parent := none }

def sceneOneRoot : Scene := { nodes := [rootNode0], nextId := 1, conns := [] }

/-- Witness for claim C3 at a concrete one-root scene. -/
theorem get_project_root_spec_witness :
    SceneWF sceneOneRoot ∧ get_project_root sceneOneRoot = some (sceneOneRoot, 0) :=
  ⟨by decide, (get_project_root_spec sceneOneRoot (by decide)).2.2 rootNode0 (by decide)⟩

/-! Computation lemmas for merge_surfacing_object. -/

theorem merge_eq_many {s : Scene} {oid : Nat} {n : Node}
    (hfind : findNode s oid = some n) (hlen : 1 < (membersOf s oid).length) :
    merge_surfacing_object s oid =
      ((createNode s NType.transform (n.name ++ "_geo")).1, some s.nextId) := by
  unfold merge_surfacing_object
  rw [hfind]
  simp [hlen, createNode]

theorem merge_eq_one {s : Scene} {oid : Nat} {n m : Node}
    (hfind : findNode s oid = some n) (hmem : membersOf s oid = [m]) :
    merge_surfacing_object s oid =
      (parentToWorld (renameNode s m.nid (n.name ++ "_geo")) m.nid, some m.nid) := by
  unfold merge_surfacing_object
  rw [hfind]
  simp [hmem]

theorem merge_eq_fail {s : Scene} {oid : Nat} (h : membersOf s oid = []) :
    merge_surfacing_object s oid = (s, none) := by
  unfold merge_surfacing_object
  cases hf : findNode s oid with
  | none => rfl
  | some n => simp [h]

/-! Claim C7: the two merge paths. -/

/-- Claim C7: on an Object with more than one member, merge_surfacing_object
produces one freshly created mesh transform named name_geo at the world
root, adding exactly one node; on an Object with exactly one member it
creates nothing, renames that same member to the identical name_geo name and
reparents it to the world. -/
theorem merge_surfacing_object_paths (s : Scene) (oid : Nat) (n : Node)
    (hwf : SceneWF s) (hfind : findNode s oid = some n) :
    (1 < (membersOf s oid).length →
      ∃ g s', merge_surfacing_object s oid = (s', some g) ∧
        (∀ m ∈ s.nodes, m.nid ≠ g) ∧
        (∃ gn, findNode s' g = some gn ∧ gn.name = n.name ++ "_geo" ∧
          gn.ntype = NType.transform ∧ gn.parent = none) ∧
        s'.nodes.length = s.nodes.length + 1) ∧
    (∀ m, membersOf s oid = [m] →
      ∃ s', merge_surfacing_object s oid = (s', some m.nid) ∧
        (∃ mn, findNode s' m.nid = some mn ∧ mn.name = n.name ++ "_geo" ∧
          mn.parent = none) ∧
        s'.nodes.length = s.nodes.length) := by
  constructor
  · intro hlen
    refine ⟨s.nextId, (createNode s NType.transform (n.name ++ "_geo")).1,
      merge_eq_many hfind hlen, wf_fresh hwf, ?_, by simp [createNode]⟩
    exact ⟨_, findNode_append_new (N := plainNodeAt s.nextId (n.name ++ "_geo")
      NType.transform) (wf_fresh hwf), rfl, rfl, rfl⟩
  · intro m hmem
    have hm : findNode s m.nid = some m :=
      membersOf_findNode (hmem ▸ List.mem_singleton.2 rfl)
    refine ⟨_, merge_eq_one hfind hmem, ?_, by simp [parentToWorld, renameNode, updateNode]⟩
    rw [parentToWorld,
      findNode_updateNode _ _ _ (fun x => { x with parent := none }) (fun x => rfl),
      renameNode,
      findNode_updateNode _ _ _ (fun x => { x with name := n.name ++ "_geo" }) (fun x => rfl),
      hm]
    simp

/-- A scene with a two-member Object used to witness claim C7. -/
def sceneMerge : Scene :=
  { nodes := [
      { nid := 0, name := "obj", ntype := NType.objectSet,
        attrs := [("surfacing_object", "")], members := [1, 2], parent := none },
      { nid := 1, name := "meshA", ntype := NType.transform,
        attrs := [], members := [], parent := none },
      { nid := 2, name := "meshB", ntype := NType.transform,
        attrs := [], members := [], parent := none } ],
    nextId := 3, conns := [] }

def sceneMergeObjNode : Node :=
  { nid := 0, name := "obj", ntype := NType.objectSet,
    attrs := [("surfacing_object", "")], members := [1, 2], parent := none }

/-- Witness for claim C7: merging the two-member Object adds one fresh
transform named obj_geo. -/
theorem merge_surfacing_object_paths_witness :
    1 < (membersOf sceneMerge 0).length ∧
    ∃ g s', merge_surfacing_object sceneMerge 0 = (s', some g) ∧
      (∀ m ∈ sceneMerge.nodes, m.nid ≠ g) ∧
      (∃ gn, findNode s' g = some gn ∧ gn.name = sceneMergeObjNode.name ++ "_geo" ∧
        gn.ntype = NType.transform ∧ gn.parent = none) ∧
      s'.nodes.length = sceneMerge.nodes.length + 1 :=
  ⟨by decide, (merge_surfacing_object_paths sceneMerge 0 sceneMergeObjNode
    (by decide) (by decide)).1 (by decide)⟩

/-! Claim C8: the merge-failure sentinel and the export skip. -/

/-- Claim C8: merging an Object whose member list is empty hits the caught
IndexError, leaves the scene untouched and returns the False sentinel, and
the export merge loop drops that Object and continues with the remaining
ones unchanged. -/
theorem merge_failure_sentinel_and_skip (s : Scene) (o : Node)
    (h : membersOf s o.nid = []) :
    merge_surfacing_object s o.nid = (s, none) ∧
    ∀ rest : List Node, mergeObjects s (o :: rest) = mergeObjects s rest := by
  refine ⟨merge_eq_fail h, fun rest => ?_⟩
  conv_lhs => rw [mergeObjects]
  rw [merge_eq_fail h]

/-- A scene with an empty Object and a one-member Object used to witness
claim C8. -/
def sceneSkip : Scene :=
  { nodes := [
      { nid := 0, name := "empty", ntype := NType.objectSet,
        attrs := [("surfacing_object", "")], members := [], parent := none },
      { nid := 1, name := "full", ntype := NType.objectSet,
        attrs := [("surfacing_object", "")], members := [2], parent := none },
      { nid := 2, name := "meshC", ntype := NType.transform,
        attrs := [], members := [], parent := none } ],
    nextId := 3, conns := [] }

def sceneSkipEmptyNode : Node :=
  { nid := 0, name := "empty", ntype := NType.objectSet,
    attrs := [("surfacing_object", "")], members := [], parent := none }

def sceneSkipFullNode : Node :=
  { nid := 1, name := "full", ntype := NType.objectSet,
    attrs := [("surfacing_object", "")], members := [2], parent := none }

/-- Witness for claim C8 at a concrete scene: the empty Object yields the
sentinel and is skipped before the remaining Object. -/
theorem merge_failure_sentinel_and_skip_witness :
    merge_surfacing_object sceneSkip 0 = (sceneSkip, none) ∧
    mergeObjects sceneSkip [sceneSkipEmptyNode, sceneSkipFullNode] =
      mergeObjects sceneSkip [sceneSkipFullNode] := by
  have h := merge_failure_sentinel_and_skip sceneSkip sceneSkipEmptyNode (by decide)
  exact ⟨h.1, h.2 [sceneSkipFullNode]⟩

/-! Claim C2: the dead default-creation branch of surfacingInit. -/

/-- Claim C2 fails on the code: the source tests the bound method
root.members (not the call root.members()), which is always truthy, so
running surfacingInit on the empty scene — whose fresh root has no members —
creates no surfacing project at all; the scene ends with just the root set
and the partition.  The spec-modelled initializer (the docstring behaviour)
does create the project named project.  This exhibits the divergence. -/
theorem surfacingInit_empty_scene_no_default_pair :
    (surfacingInit sceneEmpty).map
        (fun t => ((get_projects t).length, (lsType t NType.objectSet).length)) =
      some (0, 1) ∧
    (surfacingInitSpec sceneEmpty).map (fun t => (get_projects t).map Node.name) =
      some ["project"] := by
  constructor
  · rfl
  · rfl

/-! Claim C9: exporting a project with no mergeable Objects. -/

theorem mergeObjects_all_empty (s : Scene) (l : List Node)
    (h : ∀ o ∈ l, membersOf s o.nid = []) :
    mergeObjects s l = (s, []) := by
  induction l with
  | nil => rfl
  | cons o rest ih =>
    conv_lhs => rw [mergeObjects]
    rw [merge_eq_fail (h o (List.mem_cons_self o rest))]
    exact ih (fun o' ho' => h o' (List.mem_cons_of_mem o ho'))

theorem export_project_rest_all_empty (env : Env) (s : Scene) (pid : Nat)
    (se : Bool) (fp : Option String) (evs0 : List FxEvent)
    (hobjs : ∀ o ∈ get_objects s pid, membersOf s o.nid = []) :
    export_project_rest env s pid se fp evs0 =
      (s, evs0 ++ (if se then [FxEvent.openScene] else [])) := by
  unfold export_project_rest
  by_cases hdir : (env.isDirectory (match fp with
      | none => env.promptFolder
      | some f => if f = "" then env.promptFolder else f) && isProjectAt s pid) = true
  · simp only [hdir, if_true, mergeObjects_all_empty s _ hobjs, List.isEmpty_nil, if_pos rfl]
  · simp only [Bool.not_eq_true] at hdir
    simp only [hdir, Bool.false_eq_true, if_false]

theorem export_project_all_empty_eq (env : Env) (s : Scene) (pid : Nat)
    (se : Bool) (fp : Option String) (evs0 : List FxEvent)
    (hevs0 : (if se then check_scene_state env else some []) = some evs0)
    (hobjs : ∀ o ∈ get_objects s pid, membersOf s o.nid = []) :
    export_project env s pid se fp =
      some (s, evs0 ++ (if se then [FxEvent.openScene] else [])) := by
  cases se with
  | false =>
    have h0 : evs0 = [] := by simpa using hevs0.symm
    subst h0
    simp [export_project, export_project_rest_all_empty env s pid false fp [] hobjs]
  | true =>
    have h1 : check_scene_state env = some evs0 := by simpa using hevs0
    simp [export_project, h1,
      export_project_rest_all_empty env s pid true fp evs0 hobjs]

/-- Claim C9: when every Object of the project fails to merge, export_project
returns without raising, never invokes the interchange exporter, creates no
per-object export directory, and leaves the scene unchanged. -/
theorem export_project_no_valid_objects_no_writes (env : Env) (s : Scene)
    (pid : Nat) (se : Bool) (fp : Option String)
    (hchk : env.unsavedScene = false ∨ env.userSaves = true)
    (hobjs : ∀ o ∈ get_objects s pid, membersOf s o.nid = []) :
    ∃ evs, export_project env s pid se fp = some (s, evs) ∧
      evs.all (fun e => !(isExportWrite e)) = true := by
  cases se with
  | false =>
    refine ⟨[], export_project_all_empty_eq env s pid false fp [] rfl hobjs, rfl⟩
  | true =>
    cases hu : env.unsavedScene with
    | false =>
      refine ⟨[FxEvent.openScene], ?_, rfl⟩
      have : (if true then check_scene_state env else some []) = some [] := by
        simp [check_scene_state, hu]
      simpa using export_project_all_empty_eq env s pid true fp [] this hobjs
    | true =>
      have hus : env.userSaves = true := by
        cases hchk with
        | inl h => rw [h] at hu; cases hu
        | inr h => exact h
      refine ⟨[FxEvent.saveScene, FxEvent.openScene], ?_, rfl⟩
      have : (if true then check_scene_state env else some []) = some [FxEvent.saveScene] := by
        simp [check_scene_state, hu, hus]
      simpa using export_project_all_empty_eq env s pid true fp [FxEvent.saveScene] this hobjs

/-- A concrete environment and scene used to witness claim C9. -/
def envC9 : Env :=
  { isDirectory := fun _ => true, promptFolder := "", unsavedScene := false,
    userSaves := false, subdivIterations := 1 }

def sceneC9 : Scene :=
  { nodes := [
      { nid := 0, name := "proj", ntype := NType.objectSet,
        attrs := [("surfacing_project", "")], members := [1], parent := none },
      { nid := 1, name := "emptyObj", ntype := NType.objectSet,
        attrs := [("surfacing_object", "")], members := [], parent := none } ],
    nextId := 2, conns := [] }

/-- Witness for claim C9 at a concrete scene whose single Object has no
members. -/
theorem export_project_no_valid_objects_no_writes_witness :
    ∃ evs, export_project envC9 sceneC9 0 true (some "/tmp/out") = some (sceneC9, evs) ∧
      evs.all (fun e => !(isExportWrite e)) = true :=
  export_project_no_valid_objects_no_writes envC9 sceneC9 0 true (some "/tmp/out")
    (Or.inl rfl) (by decide)

/-! Generic fold invariants. -/

theorem foldl_invariant {α β : Type} (P : α → Prop) (step : α → β → α) :
    ∀ (l : List β) (s : α), (∀ a x, x ∈ l → P a → P (step a x)) → P s →
      P (l.foldl step s) := by
  intro l
  induction l with
  | nil => intro s _ h0; exact h0
  | cons x t ih =>
    intro s h h0
    exact ih _ (fun a y hy => h a y (List.mem_cons_of_mem x hy))
      (h s x (List.mem_cons_self x t) h0)

/-! Preservation of well-formedness by the primitives. -/

theorem SceneWF_updateNode {s : Scene} {i : Nat} {f : Node → Node}
    (hwf : SceneWF s)
    (hid : ∀ x, (f x).nid = x.nid)
    (hmem : ∀ x ∈ s.nodes, (∀ m ∈ x.members, m < s.nextId) →
      ∀ m ∈ (f x).members, m < s.nextId)
    (hpar : ∀ x ∈ s.nodes, (∀ j, x.parent = some j → j < s.nextId) →
      ∀ j, (f x).parent = some j → j < s.nextId) :
    SceneWF (updateNode s i f) := by
  obtain ⟨h1, h2, h3, h4, h5⟩ := hwf
  have hg : ∀ x : Node, ((if x.nid = i then f x else x) : Node).nid = x.nid := by
    intro x
    by_cases hx : x.nid = i <;> simp [hx, hid]
  refine ⟨?_, ?_, ?_, ?_, h5⟩
  · rw [show (updateNode s i f).nodes.map Node.nid = s.nodes.map Node.nid from ?_]
    · exact h1
    · unfold updateNode
      rw [List.map_map]
      exact List.map_congr_left (fun x _ => hg x)
  · intro n hn
    obtain ⟨m, hm, rfl⟩ := List.mem_map.1 hn
    rw [hg m]
    exact h2 m hm
  · intro n hn
    obtain ⟨m, hm, rfl⟩ := List.mem_map.1 hn
    by_cases hx : m.nid = i
    · simp only [hx, if_pos rfl]
      exact hmem m hm (h3 m hm)
    · simp only [hx, if_neg hx]
      exact h3 m hm
  · intro n hn
    obtain ⟨m, hm, rfl⟩ := List.mem_map.1 hn
    by_cases hx : m.nid = i
    · simp only [hx, if_pos rfl]
      exact hpar m hm (h4 m hm)
    · simp only [hx, if_neg hx]
      exact h4 m hm

theorem SceneWF_setAttrForce {s : Scene} {i : Nat} {a v : String}
    (hwf : SceneWF s) : SceneWF (setAttrForce s i a v) :=
  SceneWF_updateNode hwf (fun _ => rfl) (fun _ _ h => h) (fun _ _ h => h)

theorem SceneWF_renameNode {s : Scene} {i : Nat} {nm : String}
    (hwf : SceneWF s) : SceneWF (renameNode s i nm) :=
  SceneWF_updateNode hwf (fun _ => rfl) (fun _ _ h => h) (fun _ _ h => h)

theorem SceneWF_parentToWorld {s : Scene} {i : Nat}
    (hwf : SceneWF s) : SceneWF (parentToWorld s i) :=
  SceneWF_updateNode hwf (fun _ => rfl) (fun _ _ h => h)
    (fun _ _ _ j hj => by cases hj)

theorem SceneWF_addMember {s : Scene} {setId memId : Nat}
    (hwf : SceneWF s) (hm : memId < s.nextId) : SceneWF (addMember s setId memId) := by
  refine SceneWF_updateNode hwf ?_ ?_ ?_
  · intro x
    by_cases hc : x.members.contains memId = true
    · rw [if_pos hc]
    · rw [if_neg hc]
  · intro x _ h m hmem
    by_cases hc : x.members.contains memId = true
    · rw [if_pos hc] at hmem
      exact h m hmem
    · rw [if_neg hc] at hmem
      rcases List.mem_append.1 hmem with h' | h'
      · exact h m h'
      · rw [List.mem_singleton.1 h']
        exact hm
  · intro x _ h j hj
    by_cases hc : x.members.contains memId = true
    · rw [if_pos hc] at hj
      exact h j hj
    · rw [if_neg hc] at hj
      exact h j hj

theorem SceneWF_removeMember {s : Scene} {setId memId : Nat}
    (hwf : SceneWF s) : SceneWF (removeMember s setId memId) :=
  SceneWF_updateNode hwf (fun _ => rfl)
    (fun _ _ h m hm => h m (List.mem_of_mem_filter hm)) (fun _ _ h => h)

theorem SceneWF_deleteNode {s : Scene} {i : Nat} (hwf : SceneWF s) :
    SceneWF (deleteNode s i) := by
  obtain ⟨h1, h2, h3, h4, h5⟩ := hwf
  refine ⟨?_, ?_, ?_, ?_, ?_⟩
  · rw [show (deleteNode s i).nodes.map Node.nid =
        (s.nodes.filter (fun n => decide (n.nid ≠ i))).map Node.nid from ?_]
    · exact ((List.filter_sublist s.nodes).map Node.nid).nodup h1
    · unfold deleteNode
      rw [List.map_map]
      exact List.map_congr_left (fun x _ => rfl)
  · intro n hn
    obtain ⟨m, hm, rfl⟩ := List.mem_map.1 hn
    exact h2 m (List.mem_of_mem_filter hm)
  · intro n hn
    obtain ⟨m, hm, rfl⟩ := List.mem_map.1 hn
    exact fun j hj => h3 m (List.mem_of_mem_filter hm) j (List.mem_of_mem_filter hj)
  · intro n hn
    obtain ⟨m, hm, rfl⟩ := List.mem_map.1 hn
    exact h4 m (List.mem_of_mem_filter hm)
  · intro c hc
    exact h5 c (List.mem_of_mem_filter hc)

theorem SceneWF_disconnectSets {s : Scene} {i : Nat} (hwf : SceneWF s) :
    SceneWF (disconnectSets s i) := by
  obtain ⟨h1, h2, h3, h4, h5⟩ := hwf
  exact ⟨h1, h2, h3, h4, fun c hc => h5 c (List.mem_of_mem_filter hc)⟩

theorem SceneWF_createNode {s : Scene} {t : NType} {m : String} (hwf : SceneWF s) :
    SceneWF (createNode s t m).1 := by
  obtain ⟨h1, h2, h3, h4, h5⟩ := hwf
  refine ⟨?_, ?_, ?_, ?_, ?_⟩
  · unfold createNode
    simp only [List.map_append, List.map_cons, List.map_nil]
    rw [List.nodup_append]
    refine ⟨h1, List.nodup_singleton _, ?_⟩
    intro a ha hb
    have ha' : a = s.nextId := List.mem_singleton.1 hb
    obtain ⟨m, hm, hnid⟩ := List.mem_map.1 ha
    exact absurd (h2 m hm) (by rw [hnid, ha']; exact Nat.lt_irrefl _)
  · intro n hn
    rcases List.mem_append.1 hn with h' | h'
    · exact Nat.lt_succ_of_lt (h2 n h')
    · rw [List.mem_singleton.1 h']
      exact Nat.lt_succ_self _
  · intro n hn
    rcases List.mem_append.1 hn with h' | h'
    · exact fun m hm => Nat.lt_succ_of_lt (h3 n h' m hm)
    · rw [List.mem_singleton.1 h']
      intro m hm
      cases hm
  · intro n hn
    rcases List.mem_append.1 hn with h' | h'
    · exact fun j hj => Nat.lt_succ_of_lt (h4 n h' j hj)
    · rw [List.mem_singleton.1 h']
      intro j hj
      cases hj
  · intro c hc
    exact ⟨Nat.lt_succ_of_lt (h5 c hc).1, Nat.lt_succ_of_lt (h5 c hc).2⟩

theorem SceneWF_connsAppend {s : Scene} {a b : Nat} (hwf : SceneWF s)
    (ha : a < s.nextId) (hb : b < s.nextId) :
    SceneWF { s with conns := s.conns ++ [(a, b)] } := by
  obtain ⟨h1, h2, h3, h4, h5⟩ := hwf
  refine ⟨h1, h2, h3, h4, ?_⟩
  intro c hc
  rcases List.mem_append.1 hc with h' | h'
  · exact h5 c h'
  · rw [List.mem_singleton.1 h']
    exact ⟨ha, hb⟩

/-! The connect loop of update_partition: shape and success. -/

/-- A scene with its connection list replaced; nodes and counter unchanged. -/
def withConns (s : Scene) (c : List (Nat × Nat)) : Scene :=
  { s with conns := c }

theorem withConns_self (s : Scene) : withConns s s.conns = s := rfl

theorem withConns_withConns (s : Scene) (c d : List (Nat × Nat)) :
    withConns (withConns s c) d = withConns s d := rfl

theorem get_objects_withConns (s : Scene) (c : List (Nat × Nat)) (pid : Nat) :
    get_objects (withConns s c) pid = get_objects s pid := rfl

theorem get_projects_withConns (s : Scene) (c : List (Nat × Nat)) :
    get_projects (withConns s c) = get_projects s := rfl

theorem findNode_withConns (s : Scene) (c : List (Nat × Nat)) (i : Nat) :
    findNode (withConns s c) i = findNode s i := rfl

theorem get_objects_findNode {s : Scene} {pid : Nat} {o : Node}
    (h : o ∈ get_objects s pid) : findNode s o.nid = some o := by
  unfold get_objects at h
  cases hf : findNode s pid with
  | none => rw [hf] at h; simp at h
  | some p =>
    rw [hf] at h
    simp only [] at h
    by_cases hp : is_project p = true
    · simp only [hp, if_true] at h
      obtain ⟨j, _, hjf⟩ := List.mem_filterMap.1 h
      rwa [findNode_nid hjf]
    · simp [hp] at h

theorem connectPartitionPlug_eq {s : Scene} {a b : Nat} {s' : Scene}
    (h : connectPartitionPlug s a b = some s') :
    s' = withConns s (s.conns ++ [(a, b)]) := by
  unfold connectPartitionPlug at h
  split at h
  · split at h
    · exact (Option.some.inj h).symm
    · cases h
  · cases h

theorem connectPartitionPlug_some {s : Scene} {a b : Nat} {n : Node}
    (hf : findNode s a = some n) (ht : n.ntype = NType.objectSet) :
    connectPartitionPlug s a b = some (withConns s (s.conns ++ [(a, b)])) := by
  unfold connectPartitionPlug
  rw [hf]
  simp [ht, withConns]

theorem connect_foldlM_some (k : Nat) :
    ∀ (L : List Node) (s s' : Scene),
      L.foldlM (fun s3 o => connectPartitionPlug s3 o.nid k) s = some s' →
      s' = withConns s (s.conns ++ L.map (fun o => (o.nid, k))) := by
  intro L
  induction L with
  | nil =>
    intro s s' h
    rw [List.foldlM_nil] at h
    have hs := Option.some.inj h
    subst hs
    simp [withConns]
  | cons o L ih =>
    intro s s' h
    rw [List.foldlM_cons] at h
    cases hc : connectPartitionPlug s o.nid k with
    | none => rw [hc] at h; simp at h
    | some s1 =>
      rw [hc] at h
      have h1 := ih s1 s' h
      rw [connectPartitionPlug_eq hc] at h1
      rw [h1, withConns_withConns]
      simp [withConns]

theorem connect_foldlM_eq (k : Nat) :
    ∀ (L : List Node) (s : Scene),
      (∀ o ∈ L, ∃ n, findNode s o.nid = some n ∧ n.ntype = NType.objectSet) →
      ∃ s', L.foldlM (fun s3 o => connectPartitionPlug s3 o.nid k) s = some s' := by
  intro L
  induction L with
  | nil =>
    intro s _
    refine ⟨s, ?_⟩
    rw [List.foldlM_nil]
    rfl
  | cons o L ih =>
    intro s h
    obtain ⟨n, hf, ht⟩ := h o (List.mem_cons_self o L)
    rw [List.foldlM_cons, connectPartitionPlug_some hf ht]
    show ∃ s', List.foldlM (fun s3 o => connectPartitionPlug s3 o.nid k)
      (withConns s (s.conns ++ [(o.nid, k)])) L = some s'
    refine ih _ (fun o' ho' => ?_)
    obtain ⟨n', hf', ht'⟩ := h o' (List.mem_cons_of_mem o ho')
    exact ⟨n', hf', ht'⟩

theorem connect_outer_some (k : Nat) (s0 : Scene) :
    ∀ (P : List Node) (c : List (Nat × Nat)) (s' : Scene),
      P.foldlM (fun s2 p => (get_objects s2 p.nid).foldlM
        (fun s3 o => connectPartitionPlug s3 o.nid k) s2) (withConns s0 c) =
          some s' →
      s' = withConns s0 (c ++
        P.flatMap (fun p => (get_objects s0 p.nid).map (fun o => (o.nid, k)))) := by
  intro P
  induction P with
  | nil =>
    intro c s' h
    rw [List.foldlM_nil] at h
    have hs := Option.some.inj h
    subst hs
    simp
  | cons p P ih =>
    intro c s' h
    rw [List.foldlM_cons] at h
    cases hstep : (get_objects (withConns s0 c) p.nid).foldlM
        (fun s3 o => connectPartitionPlug s3 o.nid k) (withConns s0 c) with
    | none => rw [hstep] at h; simp at h
    | some s1 =>
      rw [hstep] at h
      replace h : List.foldlM (fun s2 p => (get_objects s2 p.nid).foldlM
        (fun s3 o => connectPartitionPlug s3 o.nid k) s2) s1 P = some s' := h
      have hs1 := connect_foldlM_some k _ _ _ hstep
      rw [withConns_withConns] at hs1
      subst hs1
      have h2 := ih _ _ h
      rw [h2, get_objects_withConns]
      simp [withConns, List.flatMap_cons, List.append_assoc]

theorem connectObjects_some {s : Scene} {k : Nat} {s' : Scene}
    (h : connectObjects s k = some s') :
    s' = withConns s (s.conns ++ (objectIdList s).map (fun o => (o, k))) := by
  have h' : (get_projects s).foldlM (fun s2 p => (get_objects s2 p.nid).foldlM
      (fun s3 o => connectPartitionPlug s3 o.nid k) s2) (withConns s s.conns) =
        some s' := h
  have h2 := connect_outer_some k s (get_projects s) s.conns s' h'
  rw [h2]
  unfold objectIdList
  simp [List.map_flatMap, List.map_map, Function.comp_def]

theorem connectObjects_succeeds (s : Scene) (k : Nat)
    (h : ∀ p ∈ get_projects s, ∀ o ∈ get_objects s p.nid, o.ntype = NType.objectSet) :
    ∃ s', connectObjects s k = some s' := by
  have aux : ∀ (P : List Node) (c : List (Nat × Nat)),
      (∀ p ∈ P, ∀ o ∈ get_objects s p.nid, o.ntype = NType.objectSet) →
      ∃ s', P.foldlM (fun s2 p => (get_objects s2 p.nid).foldlM
        (fun s3 o => connectPartitionPlug s3 o.nid k) s2) (withConns s c) =
          some s' := by
    intro P
    induction P with
    | nil =>
      intro c _
      refine ⟨withConns s c, ?_⟩
      rw [List.foldlM_nil]
      rfl
    | cons p P ih =>
      intro c hP
      have hinner : ∀ o ∈ get_objects (withConns s c) p.nid,
          ∃ n, findNode (withConns s c) o.nid = some n ∧
            n.ntype = NType.objectSet := by
        intro o ho
        have ho' : o ∈ get_objects s p.nid := ho
        exact ⟨o, get_objects_findNode ho', hP p (List.mem_cons_self p P) o ho'⟩
      obtain ⟨s1, hs1⟩ := connect_foldlM_eq k _ _ hinner
      rw [List.foldlM_cons, hs1]
      show ∃ s', List.foldlM (fun s2 p => (get_objects s2 p.nid).foldlM
        (fun s3 o => connectPartitionPlug s3 o.nid k) s2) s1 P = some s'
      have hshape := connect_foldlM_some k _ _ _ hs1
      rw [withConns_withConns] at hshape
      subst hshape
      exact ih _ (fun p' hp' => hP p' (List.mem_cons_of_mem p hp'))
  obtain ⟨s', hs'⟩ := aux (get_projects s) s.conns h
  exact ⟨s', hs'⟩

/-! The delete loop of update_partition. -/

/-- The member purge pm.delete applies to every surviving node. -/
def purgeMember (i : Nat) (n : Node) : Node :=
  { n with members := n.members.filter (fun m => decide (m ≠ i)) }

theorem deleteNode_nodes (s : Scene) (i : Nat) :
    (deleteNode s i).nodes =
      (s.nodes.filter (fun n => decide (n.nid ≠ i))).map (purgeMember i) := rfl

/-- Marked-partition test of the delete loop. -/
def isMarkedPart (n : Node) : Bool :=
  decide (n.ntype = NType.partition) && hasAttr n SURFACING_PARTITION

theorem mem_markedPartitions {s : Scene} {n : Node} :
    n ∈ markedPartitions s ↔ n ∈ s.nodes ∧ isMarkedPart n = true := by
  simp only [markedPartitions, lsType, List.mem_filter, isMarkedPart,
    Bool.and_eq_true, decide_eq_true_eq]
  tauto

theorem isMarkedPart_purge (i : Nat) (n : Node) :
    isMarkedPart (purgeMember i n) = isMarkedPart n := rfl

theorem deleteMarked_nextId (s : Scene) :
    (deleteMarkedPartitions s).nextId = s.nextId := by
  unfold deleteMarkedPartitions
  exact foldl_invariant (fun (a : Scene) => a.nextId = s.nextId)
    (fun (s2 : Scene) (p : Node) => deleteNode (disconnectSets s2 p.nid) p.nid)
    (markedPartitions s) s
    (fun a x _ h => h) rfl

theorem SceneWF_deleteMarked {s : Scene} (hwf : SceneWF s) :
    SceneWF (deleteMarkedPartitions s) := by
  unfold deleteMarkedPartitions
  exact foldl_invariant SceneWF
    (fun (s2 : Scene) (p : Node) => deleteNode (disconnectSets s2 p.nid) p.nid)
    (markedPartitions s) s
    (fun a x _ h => SceneWF_deleteNode (SceneWF_disconnectSets h)) hwf

theorem deleteAll_no_marked :
    ∀ (L : List Node) (s : Scene),
      (∀ n ∈ s.nodes, isMarkedPart n = true → n.nid ∈ L.map Node.nid) →
      ∀ n' ∈ (L.foldl (fun s p => deleteNode (disconnectSets s p.nid) p.nid) s).nodes,
        isMarkedPart n' = false := by
  intro L
  induction L with
  | nil =>
    intro s h n' hn'
    by_cases hm : isMarkedPart n' = true
    · simpa using h n' hn' hm
    · simpa using hm
  | cons p L ih =>
    intro s h
    refine ih _ ?_
    intro n hn hm
    rw [deleteNode_nodes] at hn
    obtain ⟨m, hmem, rfl⟩ := List.mem_map.1 hn
    have hm' : isMarkedPart m = true := by rwa [isMarkedPart_purge] at hm
    have hmm := List.mem_filter.1 hmem
    have hne : m.nid ≠ p.nid := by simpa using hmm.2
    have := h m hmm.1 hm'
    rw [List.map_cons] at this
    rcases List.mem_cons.1 this with h' | h'
    · exact absurd h' hne
    · simpa [purgeMember] using h'

theorem markedPartitions_deleteMarked (s : Scene) :
    markedPartitions (deleteMarkedPartitions s) = [] := by
  have h := deleteAll_no_marked (markedPartitions s) s
    (fun n hn hm => List.mem_map_of_mem Node.nid (mem_markedPartitions.2 ⟨hn, hm⟩))
  rw [List.eq_nil_iff_forall_not_mem]
  intro n hn
  have := mem_markedPartitions.1 hn
  rw [h n this.1] at this
  cases this.2

/-! Projects and objects are untouched by appending a fresh partition node. -/

theorem mem_get_projects {s : Scene} {n : Node} :
    n ∈ get_projects s ↔ n ∈ s.nodes ∧ n.ntype = NType.objectSet ∧
      hasAttr n ATTR_SURFACING_PROJECT = true := by
  simp only [get_projects, lsType, List.mem_filter, decide_eq_true_eq]
  tauto

theorem get_projects_append_part (l : List Node) (k κ κ' : Nat)
    (c c' : List (Nat × Nat)) :
    get_projects { nodes := l ++ [partNodeAt k], nextId := κ, conns := c } =
      get_projects { nodes := l, nextId := κ', conns := c' } := by
  simp [get_projects, lsType, List.filter_append, partNodeAt]

theorem get_objects_append_fresh (l : List Node) (N : Node) (κ κ' : Nat)
    (c c' : List (Nat × Nat)) (pid : Nat)
    (hmem : ∀ n ∈ l, ∀ m ∈ n.members, m ≠ N.nid)
    (hpid : N.nid ≠ pid) :
    get_objects { nodes := l ++ [N], nextId := κ, conns := c } pid =
      get_objects { nodes := l, nextId := κ', conns := c' } pid := by
  unfold get_objects
  rw [findNode_append_other hpid]
  cases hf : findNode { nodes := l, nextId := κ', conns := c' } pid with
  | none => rfl
  | some p =>
    show (if is_project p = true then
        List.filterMap (findNode { nodes := l ++ [N], nextId := κ, conns := c })
          p.members
      else []) =
      (if is_project p = true then
        List.filterMap (findNode { nodes := l, nextId := κ', conns := c' })
          p.members
      else [])
    by_cases hp : is_project p = true
    · rw [if_pos hp, if_pos hp]
      refine List.filterMap_congr ?_
      intro m hm
      have hpl : p ∈ l := findNode_mem hf
      exact findNode_append_other (Ne.symm (hmem p hpl m hm))
    · rw [if_neg hp, if_neg hp]

theorem objectIdList_append_part (l : List Node) (k κ κ' : Nat)
    (c c' : List (Nat × Nat))
    (hl : ∀ n ∈ l, n.nid ≠ k)
    (hmem : ∀ n ∈ l, ∀ m ∈ n.members, m ≠ k) :
    objectIdList { nodes := l ++ [partNodeAt k], nextId := κ, conns := c } =
      objectIdList { nodes := l, nextId := κ', conns := c' } := by
  unfold objectIdList
  rw [get_projects_append_part l k κ κ' c c']
  refine List.flatMap_congr ?_
  intro p hp
  have hpl : p ∈ l := (mem_get_projects.1 hp).1
  rw [get_objects_append_fresh l (partNodeAt k) κ κ' c c' p.nid hmem
    (Ne.symm (hl p hpl))]

/-! The two phases of update_partition composed. -/

/-- The scene reached just before the connect loop of update_partition:
marked partitions deleted, the fresh marked partition appended. -/
def upShape (s : Scene) : Scene :=
  { nodes := (deleteMarkedPartitions s).nodes ++ [partNodeAt s.nextId],
    nextId := s.nextId + 1,
    conns := (deleteMarkedPartitions s).conns }

theorem markedNodeAt_part (k : Nat) :
    markedNodeAt k SURFACING_PARTITION NType.partition SURFACING_PARTITION "" =
      partNodeAt k := rfl

theorem update_partition_run (s : Scene) (hwf : SceneWF s) :
    update_partition s = connectObjects (upShape s) s.nextId := by
  show connectObjects
      (setAttrForce
        (createNode (deleteMarkedPartitions s) NType.partition SURFACING_PARTITION).1
        (createNode (deleteMarkedPartitions s) NType.partition SURFACING_PARTITION).2
        SURFACING_PARTITION "")
      (createNode (deleteMarkedPartitions s) NType.partition SURFACING_PARTITION).2 = _
  rw [setAttrForce_createNode _ _ _ _ _ (SceneWF_deleteMarked hwf)]
  have hk : (createNode (deleteMarkedPartitions s) NType.partition
      SURFACING_PARTITION).2 = s.nextId := deleteMarked_nextId s
  rw [hk, deleteMarked_nextId, markedNodeAt_part]
  rfl

theorem update_partition_some_shape {s s' : Scene} (hwf : SceneWF s)
    (h : update_partition s = some s') :
    s' = withConns (upShape s)
      ((upShape s).conns ++ (objectIdList (upShape s)).map (fun o => (o, s.nextId))) := by
  rw [update_partition_run s hwf] at h
  exact connectObjects_some h

theorem update_partition_succeeds (s : Scene) (hwf : SceneWF s)
    (hobj : ∀ p ∈ get_projects (upShape s), ∀ o ∈ get_objects (upShape s) p.nid,
      o.ntype = NType.objectSet) :
    ∃ s', update_partition s = some s' := by
  rw [update_partition_run s hwf]
  exact connectObjects_succeeds _ _ hobj

/-! Recovering the per-object success facts from a successful connect loop. -/

theorem connectPartitionPlug_inv {s : Scene} {a b : Nat} {s1 : Scene}
    (h : connectPartitionPlug s a b = some s1) :
    ∃ n, findNode s a = some n ∧ n.ntype = NType.objectSet := by
  unfold connectPartitionPlug at h
  split at h
  · rename_i n heq
    split at h
    · rename_i ht
      exact ⟨n, heq, ht⟩
    · cases h
  · cases h

theorem connect_foldlM_types (k : Nat) :
    ∀ (L : List Node) (s s' : Scene),
      L.foldlM (fun s3 o => connectPartitionPlug s3 o.nid k) s = some s' →
      ∀ o ∈ L, ∃ n, findNode s o.nid = some n ∧ n.ntype = NType.objectSet := by
  intro L
  induction L with
  | nil => intro s s' _ o ho; simp at ho
  | cons o L ih =>
    intro s s' h o' ho'
    rw [List.foldlM_cons] at h
    cases hc : connectPartitionPlug s o.nid k with
    | none => rw [hc] at h; simp at h
    | some s1 =>
      rw [hc] at h
      rcases List.mem_cons.1 ho' with h' | h'
      · subst h'
        exact connectPartitionPlug_inv hc
      · obtain ⟨n, hf, ht⟩ := ih s1 s' h o' h'
        rw [connectPartitionPlug_eq hc] at hf
        exact ⟨n, hf, ht⟩

theorem connectObjects_types {s : Scene} {k : Nat} {s' : Scene}
    (h : connectObjects s k = some s') :
    ∀ p ∈ get_projects s, ∀ o ∈ get_objects s p.nid, o.ntype = NType.objectSet := by
  have aux : ∀ (P : List Node) (c : List (Nat × Nat)) (s' : Scene),
      P.foldlM (fun s2 p => (get_objects s2 p.nid).foldlM
        (fun s3 o => connectPartitionPlug s3 o.nid k) s2) (withConns s c) = some s' →
      ∀ p ∈ P, ∀ o ∈ get_objects s p.nid, o.ntype = NType.objectSet := by
    intro P
    induction P with
    | nil => intro c s' _ p hp; simp at hp
    | cons p P ih =>
      intro c s' h p' hp' o ho
      rw [List.foldlM_cons] at h
      cases hstep : (get_objects (withConns s c) p.nid).foldlM
          (fun s3 o => connectPartitionPlug s3 o.nid k) (withConns s c) with
      | none => rw [hstep] at h; simp at h
      | some s1 =>
        rw [hstep] at h
        replace h : List.foldlM (fun s2 p => (get_objects s2 p.nid).foldlM
          (fun s3 o => connectPartitionPlug s3 o.nid k) s2) s1 P = some s' := h
        rcases List.mem_cons.1 hp' with hpp | hpp
        · subst hpp
          have ho2 : o ∈ get_objects (withConns s c) p'.nid := ho
          obtain ⟨n, hf, ht⟩ := connect_foldlM_types k _ _ _ hstep o ho2
          have hfo : findNode s o.nid = some o := get_objects_findNode ho
          have hfn : findNode s o.nid = some n := hf
          rw [hfo] at hfn
          rw [Option.some.inj hfn]
          exact ht
        · have hshape := connect_foldlM_some k _ _ _ hstep
          rw [withConns_withConns] at hshape
          subst hshape
          exact ih _ _ h p' hpp o ho
  intro p hp o ho
  have h' : (get_projects s).foldlM (fun s2 p => (get_objects s2 p.nid).foldlM
      (fun s3 o => connectPartitionPlug s3 o.nid k) s2) (withConns s s.conns) =
        some s' := h
  exact aux (get_projects s) s.conns s' h' p hp o ho

/-! Claim C4: the state after update_partition. -/

theorem markedPartitions_shape (l₁ l₂ : List Node) (k k' k'' : Nat)
    (c c' c'' : List (Nat × Nat)) :
    markedPartitions { nodes := l₁ ++ l₂, nextId := k, conns := c } =
      markedPartitions { nodes := l₁, nextId := k', conns := c' } ++
      markedPartitions { nodes := l₂, nextId := k'', conns := c'' } := by
  simp [markedPartitions, lsType, List.filter_append]

theorem markedPartitions_nodes (s : Scene) (k : Nat) (c : List (Nat × Nat)) :
    markedPartitions { nodes := s.nodes, nextId := k, conns := c } =
      markedPartitions s := by
  simp [markedPartitions, lsType]

theorem markedPartitions_single_part (k k' : Nat) (c : List (Nat × Nat)) :
    markedPartitions { nodes := [partNodeAt k], nextId := k', conns := c } =
      [partNodeAt k] := rfl

/-- Claim C4: after a successful update_partition run exactly one partition
node carrying the surfacing_partition marker exists, and the incoming
connections of that partition are exactly one per member Object of every
surfacing Project — the sources of those connections, in order, are the
members of every project, no more and no fewer. -/
theorem update_partition_unique_partition_and_connections (s s' : Scene)
    (hwf : SceneWF s) (h : update_partition s = some s') :
    ∃ P, markedPartitions s' = [P] ∧
      (s'.conns.filter (fun c => decide (c.2 = P.nid))).map Prod.fst =
        objectIdList s' := by
  have hshape := update_partition_some_shape hwf h
  subst hshape
  have hwf0 := SceneWF_deleteMarked hwf
  refine ⟨partNodeAt s.nextId, ?_, ?_⟩
  · show markedPartitions (upShape s) = [partNodeAt s.nextId]
    unfold upShape
    rw [markedPartitions_shape (deleteMarkedPartitions s).nodes [partNodeAt s.nextId]
      (s.nextId + 1) 0 0 (deleteMarkedPartitions s).conns [] []]
    rw [markedPartitions_nodes (deleteMarkedPartitions s) 0 []]
    rw [markedPartitions_deleteMarked]
    rw [markedPartitions_single_part]
    rfl
  · show (((upShape s).conns ++
        (objectIdList (upShape s)).map (fun o => (o, s.nextId))).filter
          (fun c => decide (c.2 = (partNodeAt s.nextId).nid))).map Prod.fst =
      objectIdList (upShape s)
    rw [List.filter_append]
    have h1 : (upShape s).conns.filter
        (fun c => decide (c.2 = (partNodeAt s.nextId).nid)) = [] := by
      refine List.filter_eq_nil_iff.2 ?_
      intro c hc
      have hc' : c ∈ (deleteMarkedPartitions s).conns := hc
      have hlt : c.2 < s.nextId := by
        have := (hwf0.2.2.2.2 c hc').2
        rwa [deleteMarked_nextId] at this
      simp [partNodeAt]
      exact Nat.ne_of_lt hlt
    have h2 : ((objectIdList (upShape s)).map (fun o => (o, s.nextId))).filter
        (fun c => decide (c.2 = (partNodeAt s.nextId).nid)) =
        (objectIdList (upShape s)).map (fun o => (o, s.nextId)) := by
      refine List.filter_eq_self.2 ?_
      intro a ha
      obtain ⟨o, _, rfl⟩ := List.mem_map.1 ha
      exact decide_eq_true rfl
    rw [h1, h2, List.nil_append, List.map_map]
    simp [Function.comp_def]

/-- Witness scene for claim C4: one project with one empty object. -/
def sceneC4 : Scene :=
  { nodes := [
      { nid := 0, name := "proj", ntype := NType.objectSet,
        attrs := [("surfacing_project", "")], members := [1], parent := none },
      { nid := 1, name := "objA", ntype := NType.objectSet,
        attrs := [("surfacing_object", "")], members := [], parent := none } ],
    nextId := 2, conns := [] }

def sceneC4Out : Scene := (update_partition sceneC4).getD sceneEmpty

/-- Witness for claim C4 at a concrete scene. -/
theorem update_partition_unique_partition_and_connections_witness :
    SceneWF sceneC4 ∧ ∃ P, markedPartitions sceneC4Out = [P] ∧
      (sceneC4Out.conns.filter (fun c => decide (c.2 = P.nid))).map Prod.fst =
        objectIdList sceneC4Out :=
  ⟨by decide, update_partition_unique_partition_and_connections sceneC4 sceneC4Out
    (by decide) (by decide)⟩

/-! The name-level observation of the scene produced by update_partition. -/

/-- The view of the freshly created marked partition node. -/
def partView : NodeView :=
  { name := SURFACING_PARTITION, ntype := NType.partition,
    attrs := [(SURFACING_PARTITION, "")], memberNames := [], parentName := none }

/-- Views of a node list against itself, ignoring counter and connections. -/
def viewList (l : List Node) : List NodeView :=
  l.map (viewNode { nodes := l, nextId := 0, conns := [] })

/-- Name resolution against a bare node list. -/
def nameIn (l : List Node) (i : Nat) : String :=
  nameOf { nodes := l, nextId := 0, conns := [] } i

theorem nameOf_append_other {l : List Node} {N : Node} {k : Nat}
    {c : List (Nat × Nat)} {i : Nat} (h : N.nid ≠ i) :
    nameOf { nodes := l ++ [N], nextId := k, conns := c } i = nameIn l i := by
  unfold nameIn nameOf
  rw [findNode_append_other (d := 0) (e := []) h]

theorem nameOf_append_new {l : List Node} {N : Node} {k : Nat}
    {c : List (Nat × Nat)} (h : ∀ n ∈ l, n.nid ≠ N.nid) :
    nameOf { nodes := l ++ [N], nextId := k, conns := c } N.nid = N.name := by
  unfold nameOf
  rw [findNode_append_new h]

theorem SceneWF_connsAppendList {t : Scene} {pairs : List (Nat × Nat)}
    (hwf : SceneWF t)
    (hp : ∀ c ∈ pairs, c.1 < t.nextId ∧ c.2 < t.nextId) :
    SceneWF (withConns t (t.conns ++ pairs)) := by
  obtain ⟨h1, h2, h3, h4, h5⟩ := hwf
  refine ⟨h1, h2, h3, h4, ?_⟩
  intro c hc
  rcases List.mem_append.1 hc with h' | h'
  · exact h5 c h'
  · exact hp c h'

theorem objectIdList_bound {t : Scene} (hwf : SceneWF t) :
    ∀ o ∈ objectIdList t, o < t.nextId := by
  intro o ho
  unfold objectIdList at ho
  obtain ⟨p, _, ho2⟩ := List.mem_flatMap.1 ho
  obtain ⟨onode, hon, rfl⟩ := List.mem_map.1 ho2
  exact hwf.2.1 _ (findNode_mem (get_objects_findNode hon))

theorem viewNode_append_fresh {l : List Node} {N : Node} {k : Nat}
    {c : List (Nat × Nat)} {n : Node}
    (hmem : ∀ m ∈ n.members, m ≠ N.nid)
    (hpar : ∀ j, n.parent = some j → j ≠ N.nid) :
    viewNode { nodes := l ++ [N], nextId := k, conns := c } n =
      viewNode { nodes := l, nextId := 0, conns := [] } n := by
  unfold viewNode
  congr 1
  · refine List.filterMap_congr ?_
    intro m hm
    rw [findNode_append_other (d := 0) (e := []) (Ne.symm (hmem m hm))]
  · cases hj : n.parent with
    | none => rfl
    | some j =>
      show ((some j).bind fun i => (findNode { nodes := l ++ [N], nextId := k, conns := c } i).map Node.name) = ((some j).bind fun i => (findNode { nodes := l, nextId := 0, conns := [] } i).map Node.name)
      rw [Option.some_bind, Option.some_bind,
        findNode_append_other (d := 0) (e := []) (Ne.symm (hpar j hj))]

theorem mapView_fresh (l : List Node) (k κ : Nat) (c : List (Nat × Nat))
    (hmem : ∀ n ∈ l, ∀ m ∈ n.members, m ≠ k)
    (hpar : ∀ n ∈ l, ∀ j, n.parent = some j → j ≠ k) :
    (l ++ [partNodeAt k]).map (viewNode { nodes := l ++ [partNodeAt k], nextId := κ, conns := c }) =
      viewList l ++ [partView] := by
  rw [List.map_append]
  unfold viewList
  congr 1
  · refine List.map_congr_left ?_
    intro n hn
    exact viewNode_append_fresh (N := partNodeAt k) (hmem n hn) (hpar n hn)

theorem nameOf_append_partNode {l : List Node} {k κ : Nat} {c : List (Nat × Nat)}
    (hl : ∀ n ∈ l, n.nid ≠ k) :
    nameOf { nodes := l ++ [partNodeAt k], nextId := κ, conns := c } k = SURFACING_PARTITION := by
  have h := nameOf_append_new (l := l) (N := partNodeAt k) (k := κ) (c := c)
    (fun n hn => hl n hn)
  exact h

theorem mapConnNames_fresh (l : List Node) (k κ : Nat) (c : List (Nat × Nat))
    (cs : List (Nat × Nat)) (objIds : List Nat)
    (hl : ∀ n ∈ l, n.nid ≠ k)
    (hcs : ∀ cc ∈ cs, cc.1 ≠ k ∧ cc.2 ≠ k)
    (hobj : ∀ o ∈ objIds, o ≠ k) :
    (cs ++ objIds.map (fun o => (o, k))).map (fun cc => (nameOf { nodes := l ++ [partNodeAt k], nextId := κ, conns := c } cc.1, nameOf { nodes := l ++ [partNodeAt k], nextId := κ, conns := c } cc.2)) =
      cs.map (fun cc => (nameIn l cc.1, nameIn l cc.2)) ++
        objIds.map (fun o => (nameIn l o, SURFACING_PARTITION)) := by
  rw [List.map_append]
  congr 1
  · refine List.map_congr_left ?_
    intro cc hcc
    rw [nameOf_append_other (Ne.symm (hcs cc hcc).1),
      nameOf_append_other (Ne.symm (hcs cc hcc).2)]
  · rw [List.map_map]
    refine List.map_congr_left ?_
    intro o ho
    show (nameOf { nodes := l ++ [partNodeAt k], nextId := κ, conns := c } o, nameOf { nodes := l ++ [partNodeAt k], nextId := κ, conns := c } k) = (nameIn l o, SURFACING_PARTITION)
    rw [nameOf_append_other (Ne.symm (hobj o ho)), nameOf_append_partNode hl]

theorem observe_fresh_partition (l : List Node) (cs : List (Nat × Nat))
    (objIds : List Nat) (k κ : Nat)
    (hl : ∀ n ∈ l, n.nid ≠ k)
    (hmem : ∀ n ∈ l, ∀ m ∈ n.members, m ≠ k)
    (hpar : ∀ n ∈ l, ∀ j, n.parent = some j → j ≠ k)
    (hcs : ∀ cc ∈ cs, cc.1 ≠ k ∧ cc.2 ≠ k)
    (hobj : ∀ o ∈ objIds, o ≠ k) :
    observe { nodes := l ++ [partNodeAt k], nextId := κ, conns := cs ++ objIds.map (fun o => (o, k)) } =
      (viewList l ++ [partView],
       cs.map (fun cc => (nameIn l cc.1, nameIn l cc.2)) ++
         objIds.map (fun o => (nameIn l o, SURFACING_PARTITION))) := by
  unfold observe
  exact Prod.ext
    (mapView_fresh l k κ (cs ++ objIds.map (fun o => (o, k))) hmem hpar)
    (mapConnNames_fresh l k κ (cs ++ objIds.map (fun o => (o, k))) cs objIds hl hcs hobj)

theorem types_append_part_iff (l : List Node) (k κ κ0 : Nat)
    (c c0 : List (Nat × Nat))
    (hl : ∀ n ∈ l, n.nid ≠ k)
    (hmem : ∀ n ∈ l, ∀ m ∈ n.members, m ≠ k) :
    (∀ p ∈ get_projects { nodes := l ++ [partNodeAt k], nextId := κ, conns := c }, ∀ o ∈ get_objects { nodes := l ++ [partNodeAt k], nextId := κ, conns := c } p.nid, o.ntype = NType.objectSet) ↔
    (∀ p ∈ get_projects { nodes := l, nextId := κ0, conns := c0 }, ∀ o ∈ get_objects { nodes := l, nextId := κ0, conns := c0 } p.nid, o.ntype = NType.objectSet) := by
  rw [get_projects_append_part l k κ κ0 c c0]
  constructor
  · intro H p hp o ho
    refine H p hp o ?_
    rw [get_objects_append_fresh l (partNodeAt k) κ κ0 c c0 p.nid hmem
      (Ne.symm (hl p (mem_get_projects.1 hp).1))]
    exact ho
  · intro H p hp o ho
    refine H p hp o ?_
    rw [get_objects_append_fresh l (partNodeAt k) κ κ0 c c0 p.nid hmem
      (Ne.symm (hl p (mem_get_projects.1 hp).1))] at ho
    exact ho

/-- Claim C5: update_partition is observationally idempotent.  A second run
deletes exactly the partition the first run created and recreates an
identical marked partition with the identical connection fan-in, so the scene
observed by names, types, attributes, memberships, hierarchy and connections
is unchanged; only the internal allocation counter differs. -/
theorem update_partition_idempotent_observed (s s1 : Scene) (hwf : SceneWF s)
    (h : update_partition s = some s1) :
    (update_partition s1).map observe = some (observe s1) := by
  have hwf0 := SceneWF_deleteMarked (s := s) hwf
  have hnext0 : (deleteMarkedPartitions s).nextId = s.nextId := deleteMarked_nextId s
  have B1 : ∀ n ∈ (deleteMarkedPartitions s).nodes, n.nid < s.nextId := by
    intro n hn
    have := hwf0.2.1 n hn
    rwa [hnext0] at this
  have B2 : ∀ n ∈ (deleteMarkedPartitions s).nodes, ∀ m ∈ n.members, m < s.nextId := by
    intro n hn m hm
    have := hwf0.2.2.1 n hn m hm
    rwa [hnext0] at this
  have B3 : ∀ n ∈ (deleteMarkedPartitions s).nodes, ∀ j, n.parent = some j → j < s.nextId := by
    intro n hn j hj
    have := hwf0.2.2.2.1 n hn j hj
    rwa [hnext0] at this
  have B4 : ∀ c ∈ (deleteMarkedPartitions s).conns, c.1 < s.nextId ∧ c.2 < s.nextId := by
    intro c hc
    have := hwf0.2.2.2.2 c hc
    rwa [hnext0] at this
  have hl0 : ∀ n ∈ (deleteMarkedPartitions s).nodes, n.nid ≠ s.nextId :=
    fun n hn => Nat.ne_of_lt (B1 n hn)
  have hl1 : ∀ n ∈ (deleteMarkedPartitions s).nodes, n.nid ≠ s.nextId + 1 :=
    fun n hn => Nat.ne_of_lt (Nat.lt_succ_of_lt (B1 n hn))
  have hm0 : ∀ n ∈ (deleteMarkedPartitions s).nodes, ∀ m ∈ n.members, m ≠ s.nextId :=
    fun n hn m hm => Nat.ne_of_lt (B2 n hn m hm)
  have hm1 : ∀ n ∈ (deleteMarkedPartitions s).nodes, ∀ m ∈ n.members, m ≠ s.nextId + 1 :=
    fun n hn m hm => Nat.ne_of_lt (Nat.lt_succ_of_lt (B2 n hn m hm))
  have hp0 : ∀ n ∈ (deleteMarkedPartitions s).nodes, ∀ j, n.parent = some j → j ≠ s.nextId :=
    fun n hn j hj => Nat.ne_of_lt (B3 n hn j hj)
  have hp1 : ∀ n ∈ (deleteMarkedPartitions s).nodes, ∀ j, n.parent = some j → j ≠ s.nextId + 1 :=
    fun n hn j hj => Nat.ne_of_lt (Nat.lt_succ_of_lt (B3 n hn j hj))
  have hc0 : ∀ c ∈ (deleteMarkedPartitions s).conns, c.1 ≠ s.nextId ∧ c.2 ≠ s.nextId :=
    fun c hc => ⟨Nat.ne_of_lt (B4 c hc).1, Nat.ne_of_lt (B4 c hc).2⟩
  have hc1 : ∀ c ∈ (deleteMarkedPartitions s).conns, c.1 ≠ s.nextId + 1 ∧ c.2 ≠ s.nextId + 1 :=
    fun c hc => ⟨Nat.ne_of_lt (Nat.lt_succ_of_lt (B4 c hc).1),
      Nat.ne_of_lt (Nat.lt_succ_of_lt (B4 c hc).2)⟩
  have EQ1 : objectIdList (upShape s) = objectIdList (deleteMarkedPartitions s) := by
    show objectIdList { nodes := (deleteMarkedPartitions s).nodes ++ [partNodeAt s.nextId], nextId := s.nextId + 1, conns := (deleteMarkedPartitions s).conns } = _
    rw [objectIdList_append_part (deleteMarkedPartitions s).nodes s.nextId (s.nextId + 1)
      0 (deleteMarkedPartitions s).conns [] hl0 hm0]
    rfl
  have OB : ∀ o ∈ objectIdList (deleteMarkedPartitions s), o < s.nextId := by
    intro o ho
    have := objectIdList_bound hwf0 o ho
    rwa [hnext0] at this
  have ho0 : ∀ o ∈ objectIdList (deleteMarkedPartitions s), o ≠ s.nextId :=
    fun o ho => Nat.ne_of_lt (OB o ho)
  have ho1 : ∀ o ∈ objectIdList (deleteMarkedPartitions s), o ≠ s.nextId + 1 :=
    fun o ho => Nat.ne_of_lt (Nat.lt_succ_of_lt (OB o ho))
  have hs1 : s1 = { nodes := (deleteMarkedPartitions s).nodes ++ [partNodeAt s.nextId], nextId := s.nextId + 1, conns := (deleteMarkedPartitions s).conns ++ (objectIdList (deleteMarkedPartitions s)).map (fun o => (o, s.nextId)) } := by
    have hsh := update_partition_some_shape hwf h
    rw [EQ1] at hsh
    exact hsh
  have hrun1 : connectObjects (upShape s) s.nextId = some s1 := by
    rw [← update_partition_run s hwf]
    exact h
  have T1 := connectObjects_types hrun1
  have T1r : ∀ p ∈ get_projects { nodes := (deleteMarkedPartitions s).nodes ++ [partNodeAt s.nextId], nextId := s.nextId + 1, conns := (deleteMarkedPartitions s).conns }, ∀ o ∈ get_objects { nodes := (deleteMarkedPartitions s).nodes ++ [partNodeAt s.nextId], nextId := s.nextId + 1, conns := (deleteMarkedPartitions s).conns } p.nid, o.ntype = NType.objectSet := T1
  have T0 := (types_append_part_iff (deleteMarkedPartitions s).nodes s.nextId
    (s.nextId + 1) 0 (deleteMarkedPartitions s).conns [] hl0 hm0).1 T1r
  have hwfU : SceneWF (upShape s) := by
    have h1 := SceneWF_setAttrForce
      (s := (createNode (deleteMarkedPartitions s) NType.partition SURFACING_PARTITION).1)
      (i := (createNode (deleteMarkedPartitions s) NType.partition SURFACING_PARTITION).2)
      (a := SURFACING_PARTITION) (v := "")
      (SceneWF_createNode (t := NType.partition) (m := SURFACING_PARTITION) hwf0)
    rw [setAttrForce_createNode _ _ _ _ _ hwf0] at h1
    rw [hnext0, markedNodeAt_part] at h1
    exact h1
  have hwf1 : SceneWF s1 := by
    rw [hs1]
    have hlist : ∀ c ∈ (objectIdList (upShape s)).map (fun o => (o, s.nextId)),
        c.1 < (upShape s).nextId ∧ c.2 < (upShape s).nextId := by
      intro c hc
      obtain ⟨o, ho, rfl⟩ := List.mem_map.1 hc
      rw [EQ1] at ho
      exact ⟨Nat.lt_succ_of_lt (OB o ho), Nat.lt_succ_self _⟩
    have hres := SceneWF_connsAppendList hwfU hlist
    rw [EQ1] at hres
    exact hres
  have hmark1 : markedPartitions s1 = [partNodeAt s.nextId] := by
    rw [hs1]
    rw [markedPartitions_shape (deleteMarkedPartitions s).nodes [partNodeAt s.nextId]
      (s.nextId + 1) 0 0 ((deleteMarkedPartitions s).conns ++ (objectIdList (deleteMarkedPartitions s)).map (fun o => (o, s.nextId))) [] []]
    rw [markedPartitions_nodes (deleteMarkedPartitions s) 0 []]
    rw [markedPartitions_deleteMarked]
    rw [markedPartitions_single_part]
    rfl
  have hnext1 : s1.nextId = s.nextId + 1 := by rw [hs1]
  have hdm1 : deleteMarkedPartitions s1 = { nodes := (deleteMarkedPartitions s).nodes, nextId := s.nextId + 1, conns := (deleteMarkedPartitions s).conns } := by
    unfold deleteMarkedPartitions
    rw [hmark1]
    show deleteNode (disconnectSets s1 s.nextId) s.nextId = _
    rw [hs1]
    show Scene.mk ((((deleteMarkedPartitions s).nodes ++ [partNodeAt s.nextId]).filter (fun n => decide (n.nid ≠ s.nextId))).map (purgeMember s.nextId)) (s.nextId + 1) ((((deleteMarkedPartitions s).conns ++ (objectIdList (deleteMarkedPartitions s)).map (fun o => (o, s.nextId))).filter (fun c => decide (c.2 ≠ s.nextId))).filter (fun c => decide (c.1 ≠ s.nextId) && decide (c.2 ≠ s.nextId))) = _
    have hh1 : ((deleteMarkedPartitions s).nodes ++ [partNodeAt s.nextId]).filter (fun n => decide (n.nid ≠ s.nextId)) = (deleteMarkedPartitions s).nodes := by
      rw [List.filter_append]
      have e1 : (deleteMarkedPartitions s).nodes.filter (fun n => decide (n.nid ≠ s.nextId)) = (deleteMarkedPartitions s).nodes :=
        List.filter_eq_self.2 (fun n hn => decide_eq_true (hl0 n hn))
      have e2 : ([partNodeAt s.nextId] : List Node).filter (fun n => decide (n.nid ≠ s.nextId)) = [] := by
        simp [partNodeAt]
      rw [e1, e2, List.append_nil]
    have hh2 : ((deleteMarkedPartitions s).nodes).map (purgeMember s.nextId) = (deleteMarkedPartitions s).nodes := by
      rw [List.map_congr_left (g := id), List.map_id]
      intro n hn
      show purgeMember s.nextId n = n
      unfold purgeMember
      rw [List.filter_eq_self.2 (fun m hm => decide_eq_true (hm0 n hn m hm))]
    have hg1 : ((deleteMarkedPartitions s).conns ++ (objectIdList (deleteMarkedPartitions s)).map (fun o => (o, s.nextId))).filter (fun c => decide (c.2 ≠ s.nextId)) = (deleteMarkedPartitions s).conns := by
      rw [List.filter_append]
      have e1 : (deleteMarkedPartitions s).conns.filter (fun c => decide (c.2 ≠ s.nextId)) = (deleteMarkedPartitions s).conns :=
        List.filter_eq_self.2 (fun c hc => decide_eq_true (hc0 c hc).2)
      have e2 : ((objectIdList (deleteMarkedPartitions s)).map (fun o => (o, s.nextId))).filter (fun c => decide (c.2 ≠ s.nextId)) = [] := by
        refine List.filter_eq_nil_iff.2 ?_
        intro a ha
        obtain ⟨o, _, rfl⟩ := List.mem_map.1 ha
        simp
      rw [e1, e2, List.append_nil]
    have hg2 : (deleteMarkedPartitions s).conns.filter (fun c => decide (c.1 ≠ s.nextId) && decide (c.2 ≠ s.nextId)) = (deleteMarkedPartitions s).conns := by
      refine List.filter_eq_self.2 ?_
      intro c hc
      rw [decide_eq_true (hc0 c hc).1, decide_eq_true (hc0 c hc).2]
      rfl
    rw [hh1, hh2, hg1, hg2]
    rfl
  have hrun2 : update_partition s1 = connectObjects (upShape s1) s1.nextId :=
    update_partition_run s1 hwf1
  have hup1 : upShape s1 = { nodes := (deleteMarkedPartitions s).nodes ++ [partNodeAt (s.nextId + 1)], nextId := s.nextId + 2, conns := (deleteMarkedPartitions s).conns } := by
    unfold upShape
    rw [hdm1, hnext1]
  have T2 := (types_append_part_iff (deleteMarkedPartitions s).nodes (s.nextId + 1)
    (s.nextId + 2) 0 (deleteMarkedPartitions s).conns [] hl1 hm1).2 T0
  have types2 : ∀ p ∈ get_projects (upShape s1), ∀ o ∈ get_objects (upShape s1) p.nid,
      o.ntype = NType.objectSet := by
    rw [hup1]
    exact T2
  obtain ⟨s2, hs2run⟩ := update_partition_succeeds s1 hwf1 types2
  have hs2shape := update_partition_some_shape hwf1 hs2run
  have EQ2 : objectIdList (upShape s1) = objectIdList (deleteMarkedPartitions s) := by
    rw [hup1]
    rw [objectIdList_append_part (deleteMarkedPartitions s).nodes (s.nextId + 1)
      (s.nextId + 2) 0 (deleteMarkedPartitions s).conns [] hl1 hm1]
    rfl
  have hs2 : s2 = { nodes := (deleteMarkedPartitions s).nodes ++ [partNodeAt (s.nextId + 1)], nextId := s.nextId + 2, conns := (deleteMarkedPartitions s).conns ++ (objectIdList (deleteMarkedPartitions s)).map (fun o => (o, s.nextId + 1)) } := by
    rw [hs2shape, EQ2, hnext1, hup1]
    rfl
  have hs2run2 : connectObjects (upShape s1) s1.nextId = some s2 := by
    rw [← hrun2]
    exact hs2run
  rw [hrun2, hs2run2]
  show some (observe s2) = some (observe s1)
  rw [hs2, hs1]
  rw [observe_fresh_partition (deleteMarkedPartitions s).nodes
    (deleteMarkedPartitions s).conns (objectIdList (deleteMarkedPartitions s))
    (s.nextId + 1) (s.nextId + 2) hl1 hm1 hp1 hc1 ho1]
  rw [observe_fresh_partition (deleteMarkedPartitions s).nodes
    (deleteMarkedPartitions s).conns (objectIdList (deleteMarkedPartitions s))
    s.nextId (s.nextId + 1) hl0 hm0 hp0 hc0 ho0]

/-- Witness scene for claim C5: a project, an object, and a stale marked
partition with one existing connection. -/
def sceneC5 : Scene :=
  { nodes := [
      { nid := 0, name := "proj", ntype := NType.objectSet,
        attrs := [("surfacing_project", "")], members := [1], parent := none },
      { nid := 1, name := "objA", ntype := NType.objectSet,
        attrs := [("surfacing_object", "")], members := [], parent := none },
      { nid := 2, name := "stale", ntype := NType.partition,
        attrs := [("surfacing_partition", "")], members := [], parent := none } ],
    nextId := 3, conns := [(1, 2)] }

def sceneC5Out : Scene := (update_partition sceneC5).getD sceneEmpty

/-- Witness for claim C5 at a concrete scene. -/
theorem update_partition_idempotent_observed_witness :
    SceneWF sceneC5 ∧
      (update_partition sceneC5Out).map observe = some (observe sceneC5Out) :=
  ⟨by decide, update_partition_idempotent_observed sceneC5 sceneC5Out
    (by decide) (by decide)⟩

/-! Survival of non-partition nodes through the delete loop. -/

theorem find?_filter_imp {α : Type} (p q : α → Bool)
    (himp : ∀ a, p a = true → q a = true) :
    ∀ l : List α, (l.filter q).find? p = l.find? p := by
  intro l
  induction l with
  | nil => rfl
  | cons a t ih =>
    by_cases hq : q a = true
    · rw [List.filter_cons_of_pos hq]
      cases hp : p a with
      | true => rw [List.find?_cons_of_pos _ hp, List.find?_cons_of_pos _ hp]
      | false =>
        rw [List.find?_cons_of_neg _ (by simp [hp]), List.find?_cons_of_neg _ (by simp [hp])]
        exact ih
    · rw [List.filter_cons_of_neg (by simpa using hq)]
      have hp : p a = false := by
        cases hpa : p a with
        | false => rfl
        | true => exact absurd (himp a hpa) hq
      rw [List.find?_cons_of_neg _ (by simp [hp])]
      exact ih

theorem findNode_deleteNode_other {t : Scene} {d i : Nat} (hne : d ≠ i) :
    findNode (deleteNode t d) i = (findNode t i).map (purgeMember d) := by
  show ((t.nodes.filter (fun n => decide (n.nid ≠ d))).map (purgeMember d)).find?
      (fun n => decide (n.nid = i)) = _
  rw [List.find?_map]
  have hcomp : ((fun n : Node => decide (n.nid = i)) ∘ purgeMember d) =
      (fun n : Node => decide (n.nid = i)) := by
    funext n
    rfl
  rw [hcomp]
  rw [find?_filter_imp (fun n => decide (n.nid = i)) (fun n => decide (n.nid ≠ d)) ?_ t.nodes]
  · rfl
  · intro a ha
    have : a.nid = i := of_decide_eq_true ha
    exact decide_eq_true (this ▸ Ne.symm hne)

theorem findNode_of_mem {t : Scene} (hnodup : (t.nodes.map Node.nid).Nodup)
    {n : Node} (hn : n ∈ t.nodes) : findNode t n.nid = some n := by
  cases hf : findNode t n.nid with
  | none =>
    unfold findNode at hf
    have := List.find?_eq_none.1 hf n hn
    simp at this
  | some m =>
    have hmn : m.nid = n.nid := findNode_nid hf
    have hmem : m ∈ t.nodes := findNode_mem hf
    rw [List.inj_on_of_nodup_map hnodup hmem hn hmn]

theorem deleteMarked_preserves (t : Scene) (i keep : Nat)
    (hne : ∀ p ∈ markedPartitions t, p.nid ≠ i)
    (hkeep : ∀ p ∈ markedPartitions t, p.nid ≠ keep) :
    ∀ n, findNode t i = some n →
      ∃ n', findNode (deleteMarkedPartitions t) i = some n' ∧
        n'.name = n.name ∧ n'.ntype = n.ntype ∧ n'.attrs = n.attrs ∧
        (keep ∈ n.members → keep ∈ n'.members) := by
  unfold deleteMarkedPartitions
  have aux : ∀ (L : List Node) (t' : Scene),
      (∀ p ∈ L, p.nid ≠ i) → (∀ p ∈ L, p.nid ≠ keep) →
      ∀ n, findNode t' i = some n →
      ∃ n', findNode (L.foldl (fun s2 p => deleteNode (disconnectSets s2 p.nid) p.nid) t') i = some n' ∧
        n'.name = n.name ∧ n'.ntype = n.ntype ∧ n'.attrs = n.attrs ∧
        (keep ∈ n.members → keep ∈ n'.members) := by
    intro L
    induction L with
    | nil =>
      intro t' _ _ n hn
      exact ⟨n, hn, rfl, rfl, rfl, fun hk => hk⟩
    | cons p L ih =>
      intro t' hni hnk n hn
      have hstep : findNode (deleteNode (disconnectSets t' p.nid) p.nid) i =
          some (purgeMember p.nid n) := by
        rw [findNode_deleteNode_other (hni p (List.mem_cons_self p L))]
        show (findNode t' i).map (purgeMember p.nid) = _
        rw [hn]
        rfl
      obtain ⟨n', hf', h1, h2, h3, h4⟩ := ih _
        (fun q hq => hni q (List.mem_cons_of_mem p hq))
        (fun q hq => hnk q (List.mem_cons_of_mem p hq))
        (purgeMember p.nid n) hstep
      refine ⟨n', hf', h1, h2, h3, fun hk => h4 ?_⟩
      show keep ∈ n.members.filter (fun m => decide (m ≠ p.nid))
      exact List.mem_filter.2 ⟨hk, decide_eq_true (Ne.symm (hnk p (List.mem_cons_self p L)))⟩
  exact aux (markedPartitions t) t hne hkeep

/-! Type health of project members, preserved by the delete loop. -/

/-- Every member of every surfacing project is an objectSet, the condition
under which the connect loop of update_partition cannot raise. -/
def ObjTypesOK (t : Scene) : Prop :=
  ∀ p ∈ get_projects t, ∀ o ∈ get_objects t p.nid, o.ntype = NType.objectSet

theorem get_objects_eq_of_find {t : Scene} {pid : Nat} {p : Node}
    (hf : findNode t pid = some p) (hp : is_project p = true) :
    get_objects t pid = p.members.filterMap (findNode t) := by
  unfold get_objects
  rw [hf]
  show (if is_project p = true then p.members.filterMap (findNode t) else []) = _
  rw [if_pos hp]

theorem objTypes_delete_step {t : Scene} {d : Nat} (hwf : SceneWF t)
    (h : ObjTypesOK t) : ObjTypesOK (deleteNode (disconnectSets t d) d) := by
  intro p' hp' o' ho'
  have hp'' := mem_get_projects.1 hp'
  have hmem : p' ∈ (t.nodes.filter (fun n => decide (n.nid ≠ d))).map (purgeMember d) :=
    hp''.1
  obtain ⟨p, hpfilter, rfl⟩ := List.mem_map.1 hmem
  have hpmem : p ∈ t.nodes := List.mem_of_mem_filter hpfilter
  have hpd : p.nid ≠ d := by simpa using (List.mem_filter.1 hpfilter).2
  have hptype : p.ntype = NType.objectSet := hp''.2.1
  have hpattr : hasAttr p ATTR_SURFACING_PROJECT = true := hp''.2.2
  have hpproj : p ∈ get_projects t := mem_get_projects.2 ⟨hpmem, hptype, hpattr⟩
  have hfp : findNode t p.nid = some p := findNode_of_mem hwf.1 hpmem
  have hfind' : findNode (deleteNode (disconnectSets t d) d) (purgeMember d p).nid =
      some (purgeMember d p) := by
    show findNode (deleteNode (disconnectSets t d) d) p.nid = _
    rw [findNode_deleteNode_other (Ne.symm hpd)]
    show (findNode t p.nid).map (purgeMember d) = _
    rw [hfp]
    rfl
  have hobj' := get_objects_eq_of_find hfind'
    (show is_project (purgeMember d p) = true from hpattr)
  rw [hobj'] at ho'
  obtain ⟨m, hm, hmf⟩ := List.mem_filterMap.1 ho'
  have hmmem : m ∈ p.members := List.mem_of_mem_filter hm
  have hmd : m ≠ d := by simpa using (List.mem_filter.1 hm).2
  rw [findNode_deleteNode_other (Ne.symm hmd)] at hmf
  have hmf' : (findNode t m).map (purgeMember d) = some o' := hmf
  cases hfm : findNode t m with
  | none => rw [hfm] at hmf'; cases hmf'
  | some o =>
    rw [hfm] at hmf'
    have ho'o : o' = purgeMember d o := (Option.some.inj hmf').symm
    have hoin : o ∈ get_objects t p.nid := by
      rw [get_objects_eq_of_find hfp hpattr]
      exact List.mem_filterMap.2 ⟨m, hmmem, hfm⟩
    have hres := h p hpproj o hoin
    rw [ho'o]
    exact hres

theorem objTypes_deleteMarked {t : Scene} (hwf : SceneWF t) (h : ObjTypesOK t) :
    ObjTypesOK (deleteMarkedPartitions t) := by
  unfold deleteMarkedPartitions
  have hinv := foldl_invariant (fun (a : Scene) => SceneWF a ∧ ObjTypesOK a)
    (fun (s2 : Scene) (p : Node) => deleteNode (disconnectSets s2 p.nid) p.nid)
    (markedPartitions t) t
    (fun a x _ hA => ⟨SceneWF_deleteNode (SceneWF_disconnectSets hA.1),
      objTypes_delete_step hA.1 hA.2⟩)
    ⟨hwf, h⟩
  exact hinv.2

/-! The core of claim C10: a scene holding the freshly built project, default
object and root membership keeps them across update_partition. -/

theorem create_project_core (t : Scene) (pid oid rootId : Nat) (nm : String)
    (hwf : SceneWF t) (hobj : ObjTypesOK t)
    (pn : Node) (hfp : findNode t pid = some pn) (hpt : pn.ntype = NType.objectSet)
    (hpa : is_project pn = true) (hpn : pn.name = nm) (hpo : oid ∈ pn.members)
    (onn : Node) (hfo : findNode t oid = some onn) (hot : onn.ntype = NType.objectSet)
    (honm : onn.name = "object") (hoa : hasAttr onn ATTR_SURFACING_OBJECT = true)
    (rn : Node) (hfr : findNode t rootId = some rn) (hrt : rn.ntype = NType.objectSet)
    (hra : hasAttr rn SURFACING_ROOT = true) (hrp : pid ∈ rn.members) :
    ∃ s4, update_partition t = some s4 ∧
      (∃ pn', findNode s4 pid = some pn' ∧ pn'.name = nm ∧ is_project pn' = true) ∧
      (∃ on' ∈ get_objects s4 pid, on'.name = "object" ∧
        hasAttr on' ATTR_SURFACING_OBJECT = true) ∧
      (∃ r' ∈ rootNodes s4, pid ∈ r'.members) := by
  have havoid : ∀ (i : Nat) (n : Node), findNode t i = some n →
      n.ntype = NType.objectSet → ∀ p ∈ markedPartitions t, p.nid ≠ i := by
    intro i n hf ht p hp heq
    have hpmem := (mem_markedPartitions.1 hp).1
    have hmk := (mem_markedPartitions.1 hp).2
    have hpty : p.ntype = NType.partition := by
      unfold isMarkedPart at hmk
      rw [Bool.and_eq_true] at hmk
      exact of_decide_eq_true hmk.1
    have hself := findNode_of_mem hwf.1 hpmem
    rw [heq, hf] at hself
    have hnp := Option.some.inj hself
    rw [← hnp] at hpty
    rw [ht] at hpty
    cases hpty
  obtain ⟨pn1, hfp1, hn1, ht1, ha1, hk1⟩ :=
    deleteMarked_preserves t pid oid (havoid pid pn hfp hpt)
      (havoid oid onn hfo hot) pn hfp
  obtain ⟨on1, hfo1, hn2, ht2, ha2, _⟩ :=
    deleteMarked_preserves t oid oid (havoid oid onn hfo hot)
      (havoid oid onn hfo hot) onn hfo
  obtain ⟨rn1, hfr1, hn3, ht3, ha3, hk3⟩ :=
    deleteMarked_preserves t rootId pid (havoid rootId rn hfr hrt)
      (havoid pid pn hfp hpt) rn hfr
  have hpidlt : pid < t.nextId := by
    have hx := hwf.2.1 pn (findNode_mem hfp)
    rwa [findNode_nid hfp] at hx
  have hoidlt : oid < t.nextId := by
    have hx := hwf.2.1 onn (findNode_mem hfo)
    rwa [findNode_nid hfo] at hx
  have hrootlt : rootId < t.nextId := by
    have hx := hwf.2.1 rn (findNode_mem hfr)
    rwa [findNode_nid hfr] at hx
  have hok : ∀ p ∈ get_projects (upShape t), ∀ o ∈ get_objects (upShape t) p.nid,
      o.ntype = NType.objectSet := by
    have hdm := objTypes_deleteMarked hwf hobj
    have hwfdm := SceneWF_deleteMarked hwf
    have hB1 : ∀ n ∈ (deleteMarkedPartitions t).nodes, n.nid ≠ t.nextId := by
      intro n hn
      have hx := hwfdm.2.1 n hn
      rw [deleteMarked_nextId] at hx
      exact Nat.ne_of_lt hx
    have hB2 : ∀ n ∈ (deleteMarkedPartitions t).nodes, ∀ m ∈ n.members, m ≠ t.nextId := by
      intro n hn m hm
      have hx := hwfdm.2.2.1 n hn m hm
      rw [deleteMarked_nextId] at hx
      exact Nat.ne_of_lt hx
    exact (types_append_part_iff (deleteMarkedPartitions t).nodes t.nextId
      (t.nextId + 1) 0 (deleteMarkedPartitions t).conns [] hB1 hB2).2
      (fun p hp o ho => hdm p hp o ho)
  obtain ⟨s4, hs4⟩ := update_partition_succeeds t hwf hok
  have hshape := update_partition_some_shape hwf hs4
  have hfind4 : ∀ (i : Nat), i < t.nextId → ∀ (x : Node),
      findNode (deleteMarkedPartitions t) i = some x → findNode s4 i = some x := by
    intro i hi x hx
    have e : findNode s4 i = findNode { nodes := (deleteMarkedPartitions t).nodes ++ [partNodeAt t.nextId], nextId := t.nextId + 1, conns := (deleteMarkedPartitions t).conns } i := by
      rw [hshape]
      rfl
    rw [e, findNode_append_other (d := 0) (e := []) (Ne.symm (Nat.ne_of_lt hi))]
    exact hx
  have hproj1 : is_project pn1 = true := by
    show hasAttr pn1 ATTR_SURFACING_PROJECT = true
    unfold hasAttr
    rw [ha1]
    exact hpa
  refine ⟨s4, hs4, ⟨pn1, hfind4 pid hpidlt pn1 hfp1, by rw [hn1, hpn], hproj1⟩, ?_, ?_⟩
  · refine ⟨on1, ?_, by rw [hn2, honm], ?_⟩
    · rw [get_objects_eq_of_find (hfind4 pid hpidlt pn1 hfp1) hproj1]
      exact List.mem_filterMap.2 ⟨oid, hk1 hpo, hfind4 oid hoidlt on1 hfo1⟩
    · have hx : hasAttr on1 ATTR_SURFACING_OBJECT = hasAttr onn ATTR_SURFACING_OBJECT := by
        unfold hasAttr
        rw [ha2]
      rw [hx]
      exact hoa
  · refine ⟨rn1, ?_, hk3 hrp⟩
    refine mem_rootNodes.2 ⟨findNode_mem (hfind4 rootId hrootlt rn1 hfr1), ?_, ?_⟩
    · rw [ht3]
      exact hrt
    · have hx : hasAttr rn1 SURFACING_ROOT = hasAttr rn SURFACING_ROOT := by
        unfold hasAttr
        rw [ha3]
      rw [hx]
      exact hra

/-! Claim C10: the unconditional default object of create_project. -/

/-- The project node shape right after its default object has been added. -/
def projNodeWithMember (k : Nat) (nm : String) (oid : Nat) : Node :=
  { nid := k, name := nm, ntype := NType.objectSet, attrs := [(ATTR_SURFACING_PROJECT, "")], members := [oid], parent := none }

/-- The root node shape right after a project has been added. -/
def rootNodeWithMember (k pid : Nat) : Node :=
  { nid := k, name := SURFACING_ROOT, ntype := NType.objectSet, attrs := [(SURFACING_ROOT, "")], members := [pid], parent := none }

theorem findNode_append_none {l l₂ : List Node} {k d i : Nat}
    {c e : List (Nat × Nat)} (h : ∀ n ∈ l₂, n.nid ≠ i) :
    findNode { nodes := l ++ l₂, nextId := k, conns := c } i =
      findNode { nodes := l, nextId := d, conns := e } i := by
  unfold findNode
  rw [List.find?_append]
  rw [show List.find? (fun n => decide (n.nid = i)) l₂ = none from
    List.find?_eq_none.2 (fun a ha => by simp [h a ha])]
  rw [Option.or_none]

theorem rootNodes_fresh_pair (s : Scene) (nm : String) (k κ : Nat)
    (c : List (Nat × Nat)) :
    rootNodes { nodes := (s.nodes ++ [projNodeWithMember k nm (k + 1)]) ++ [objNodeAt (k + 1) "object"], nextId := κ, conns := c } = rootNodes s := by
  simp [rootNodes, lsType, List.filter_append, hasAttr, projNodeWithMember,
    objNodeAt, ATTR_SURFACING_PROJECT, ATTR_SURFACING_OBJECT, SURFACING_ROOT]

theorem objTypesOK_of_member_types {t : Scene}
    (hnd : (t.nodes.map Node.nid).Nodup)
    (h : ∀ p ∈ get_projects t, ∀ m ∈ p.members, ∀ o, findNode t m = some o →
      o.ntype = NType.objectSet) : ObjTypesOK t := by
  intro p hp o ho
  have hpmem := (mem_get_projects.1 hp).1
  have hfp : findNode t p.nid = some p := findNode_of_mem hnd hpmem
  rw [get_objects_eq_of_find hfp (mem_get_projects.1 hp).2.2] at ho
  obtain ⟨m, hm, hmf⟩ := List.mem_filterMap.1 ho
  exact h p hp m hm o hmf

theorem create_object_eq (s : Scene) (pid : Nat) (hwf : SceneWF s) :
    create_object s pid none =
      (addMember { nodes := s.nodes ++ [markedNodeAt s.nextId "object" NType.objectSet ATTR_SURFACING_OBJECT ""], nextId := s.nextId + 1, conns := s.conns } pid s.nextId, s.nextId) := by
  show (addMember (setAttrForce (createNode s NType.objectSet "object").1 (createNode s NType.objectSet "object").2 ATTR_SURFACING_OBJECT "") pid (createNode s NType.objectSet "object").2, (createNode s NType.objectSet "object").2) = _
  rw [setAttrForce_createNode s NType.objectSet "object" ATTR_SURFACING_OBJECT "" hwf]
  rfl

theorem create_project_start_eq (s : Scene) (nm : String) (hwf : SceneWF s) :
    (create_object (setAttrForce (createNode s NType.objectSet nm).1 (createNode s NType.objectSet nm).2 ATTR_SURFACING_PROJECT "") (createNode s NType.objectSet nm).2 none).1 =
      { nodes := (s.nodes ++ [projNodeWithMember s.nextId nm (s.nextId + 1)]) ++ [objNodeAt (s.nextId + 1) "object"], nextId := s.nextId + 2, conns := s.conns } := by
  have hwf1 : SceneWF (setAttrForce (createNode s NType.objectSet nm).1 (createNode s NType.objectSet nm).2 ATTR_SURFACING_PROJECT "") :=
    SceneWF_setAttrForce (SceneWF_createNode hwf)
  rw [create_object_eq _ _ hwf1]
  rw [setAttrForce_createNode s NType.objectSet nm ATTR_SURFACING_PROJECT "" hwf]
  show updateNode { nodes := (s.nodes ++ [markedNodeAt s.nextId nm NType.objectSet ATTR_SURFACING_PROJECT ""]) ++ [markedNodeAt (s.nextId + 1) "object" NType.objectSet ATTR_SURFACING_OBJECT ""], nextId := s.nextId + 2, conns := s.conns } s.nextId (fun n => if n.members.contains (s.nextId + 1) then n else { n with members := n.members ++ [s.nextId + 1] }) = _
  unfold updateNode
  simp only [List.map_append]
  rw [map_guard_id s.nodes s.nextId _ (wf_fresh hwf)]
  simp [markedNodeAt, projNodeWithMember, objNodeAt]

/-- The node update performed by addMember, named for reuse. -/
def addMemFn (memId : Nat) (n : Node) : Node :=
  if n.members.contains memId then n else { n with members := n.members ++ [memId] }

theorem addMemFn_nid (m : Nat) (x : Node) : (addMemFn m x).nid = x.nid := by
  unfold addMemFn
  by_cases hc : x.members.contains m = true
  · rw [if_pos hc]
  · rw [if_neg hc]

theorem addMemFn_ntype (m : Nat) (x : Node) : (addMemFn m x).ntype = x.ntype := by
  unfold addMemFn
  by_cases hc : x.members.contains m = true
  · rw [if_pos hc]
  · rw [if_neg hc]

theorem addMemFn_attrs (m : Nat) (x : Node) : (addMemFn m x).attrs = x.attrs := by
  unfold addMemFn
  by_cases hc : x.members.contains m = true
  · rw [if_pos hc]
  · rw [if_neg hc]

theorem addMemFn_mem_self (m : Nat) (x : Node) : m ∈ (addMemFn m x).members := by
  unfold addMemFn
  by_cases hc : x.members.contains m = true
  · rw [if_pos hc]
    exact List.mem_of_elem_eq_true hc
  · rw [if_neg hc]
    exact List.mem_append_right _ (List.mem_singleton.2 rfl)

theorem addMemFn_mem_cases (m : Nat) (x : Node) {j : Nat}
    (hj : j ∈ (addMemFn m x).members) : j ∈ x.members ∨ j = m := by
  unfold addMemFn at hj
  by_cases hc : x.members.contains m = true
  · rw [if_pos hc] at hj
    exact Or.inl hj
  · rw [if_neg hc] at hj
    rcases List.mem_append.1 hj with h | h
    · exact Or.inl h
    · exact Or.inr (List.mem_singleton.1 h)

/-- The empty-root branch of create_project: the root is created fresh and the
new project, its default object and the root membership all survive. -/
theorem create_project_root_empty (s : Scene) (nm : String) (hwf : SceneWF s)
    (hobj : ObjTypesOK s) (hnil : rootNodes s = []) :
    ∃ rt s4,
      get_project_root (create_object (setAttrForce (createNode s NType.objectSet nm).1 s.nextId ATTR_SURFACING_PROJECT "") s.nextId none).1 = some rt ∧
      update_partition (addMember rt.1 rt.2 s.nextId) = some s4 ∧
      (∃ pn, findNode s4 s.nextId = some pn ∧ pn.name = nm ∧ is_project pn = true) ∧
      (∃ ob ∈ get_objects s4 s.nextId, ob.name = "object" ∧ hasAttr ob ATTR_SURFACING_OBJECT = true) ∧
      (∃ r ∈ rootNodes s4, s.nextId ∈ r.members) := by
  have hpre : (create_object (setAttrForce (createNode s NType.objectSet nm).1 s.nextId ATTR_SURFACING_PROJECT "") s.nextId none).1 = { nodes := (s.nodes ++ [projNodeWithMember s.nextId nm (s.nextId + 1)]) ++ [objNodeAt (s.nextId + 1) "object"], nextId := s.nextId + 2, conns := s.conns } :=
    create_project_start_eq s nm hwf
  have hwf1 : SceneWF (setAttrForce (createNode s NType.objectSet nm).1 s.nextId ATTR_SURFACING_PROJECT "") :=
    SceneWF_setAttrForce (SceneWF_createNode hwf)
  have hwf2 : SceneWF { nodes := (s.nodes ++ [projNodeWithMember s.nextId nm (s.nextId + 1)]) ++ [objNodeAt (s.nextId + 1) "object"], nextId := s.nextId + 2, conns := s.conns } := by
    rw [← hpre]
    exact SceneWF_addMember (SceneWF_setAttrForce (SceneWF_createNode hwf1)) (Nat.lt_succ_self _)
  have hroots2 : rootNodes { nodes := (s.nodes ++ [projNodeWithMember s.nextId nm (s.nextId + 1)]) ++ [objNodeAt (s.nextId + 1) "object"], nextId := s.nextId + 2, conns := s.conns } = [] := by
    rw [rootNodes_fresh_pair]
    exact hnil
  have hgpr : get_project_root { nodes := (s.nodes ++ [projNodeWithMember s.nextId nm (s.nextId + 1)]) ++ [objNodeAt (s.nextId + 1) "object"], nextId := s.nextId + 2, conns := s.conns } = some ({ nodes := ((s.nodes ++ [projNodeWithMember s.nextId nm (s.nextId + 1)]) ++ [objNodeAt (s.nextId + 1) "object"]) ++ [rootNodeAt (s.nextId + 2)], nextId := s.nextId + 3, conns := s.conns }, s.nextId + 2) := by
    unfold get_project_root
    rw [hroots2]
    rw [create_project_root_node_eq _ hwf2]
  have hadd : addMember { nodes := ((s.nodes ++ [projNodeWithMember s.nextId nm (s.nextId + 1)]) ++ [objNodeAt (s.nextId + 1) "object"]) ++ [rootNodeAt (s.nextId + 2)], nextId := s.nextId + 3, conns := s.conns } (s.nextId + 2) s.nextId = { nodes := ((s.nodes ++ [projNodeWithMember s.nextId nm (s.nextId + 1)]) ++ [objNodeAt (s.nextId + 1) "object"]) ++ [rootNodeWithMember (s.nextId + 2) s.nextId], nextId := s.nextId + 3, conns := s.conns } := by
    unfold addMember updateNode
    simp only [List.map_append]
    rw [map_guard_id s.nodes (s.nextId + 2) _ (fun n hn => by have := hwf.2.1 n hn; omega)]
    simp [projNodeWithMember, objNodeAt, rootNodeAt, rootNodeWithMember]
  have e3 : (create_project_root_node { nodes := (s.nodes ++ [projNodeWithMember s.nextId nm (s.nextId + 1)]) ++ [objNodeAt (s.nextId + 1) "object"], nextId := s.nextId + 2, conns := s.conns }).1 = { nodes := ((s.nodes ++ [projNodeWithMember s.nextId nm (s.nextId + 1)]) ++ [objNodeAt (s.nextId + 1) "object"]) ++ [rootNodeAt (s.nextId + 2)], nextId := s.nextId + 3, conns := s.conns } := by
    rw [create_project_root_node_eq _ hwf2]
  have hwfS3 : SceneWF { nodes := ((s.nodes ++ [projNodeWithMember s.nextId nm (s.nextId + 1)]) ++ [objNodeAt (s.nextId + 1) "object"]) ++ [rootNodeAt (s.nextId + 2)], nextId := s.nextId + 3, conns := s.conns } := by
    rw [← e3]
    exact SceneWF_setAttrForce (SceneWF_createNode hwf2)
  have hwf3 : SceneWF { nodes := ((s.nodes ++ [projNodeWithMember s.nextId nm (s.nextId + 1)]) ++ [objNodeAt (s.nextId + 1) "object"]) ++ [rootNodeWithMember (s.nextId + 2) s.nextId], nextId := s.nextId + 3, conns := s.conns } := by
    rw [← hadd]
    exact SceneWF_addMember hwfS3 (show s.nextId < s.nextId + 3 from by omega)
  have hfp3 : findNode { nodes := ((s.nodes ++ [projNodeWithMember s.nextId nm (s.nextId + 1)]) ++ [objNodeAt (s.nextId + 1) "object"]) ++ [rootNodeWithMember (s.nextId + 2) s.nextId], nextId := s.nextId + 3, conns := s.conns } s.nextId = some (projNodeWithMember s.nextId nm (s.nextId + 1)) := by
    rw [findNode_append_none (d := 0) (e := []) (fun n hn => by rw [List.mem_singleton] at hn; subst hn; show s.nextId + 2 ≠ s.nextId; omega)]
    rw [findNode_append_other (d := 0) (e := []) (show (objNodeAt (s.nextId + 1) "object").nid ≠ s.nextId from by show s.nextId + 1 ≠ s.nextId; omega)]
    exact findNode_append_new (wf_fresh hwf)
  have hfo3 : findNode { nodes := ((s.nodes ++ [projNodeWithMember s.nextId nm (s.nextId + 1)]) ++ [objNodeAt (s.nextId + 1) "object"]) ++ [rootNodeWithMember (s.nextId + 2) s.nextId], nextId := s.nextId + 3, conns := s.conns } (s.nextId + 1) = some (objNodeAt (s.nextId + 1) "object") := by
    rw [findNode_append_none (d := 0) (e := []) (fun n hn => by rw [List.mem_singleton] at hn; subst hn; show s.nextId + 2 ≠ s.nextId + 1; omega)]
    exact findNode_append_new (fun n hn => by
      show n.nid ≠ s.nextId + 1
      rcases List.mem_append.1 hn with h | h
      · have := hwf.2.1 n h
        omega
      · rw [List.mem_singleton] at h
        subst h
        show s.nextId ≠ s.nextId + 1
        omega)
  have hfr3 : findNode { nodes := ((s.nodes ++ [projNodeWithMember s.nextId nm (s.nextId + 1)]) ++ [objNodeAt (s.nextId + 1) "object"]) ++ [rootNodeWithMember (s.nextId + 2) s.nextId], nextId := s.nextId + 3, conns := s.conns } (s.nextId + 2) = some (rootNodeWithMember (s.nextId + 2) s.nextId) := by
    exact findNode_append_new (fun n hn => by
      show n.nid ≠ s.nextId + 2
      rcases List.mem_append.1 hn with h | h
      · rcases List.mem_append.1 h with h2 | h2
        · have := hwf.2.1 n h2
          omega
        · rw [List.mem_singleton] at h2
          subst h2
          show s.nextId ≠ s.nextId + 2
          omega
      · rw [List.mem_singleton] at h
        subst h
        show s.nextId + 1 ≠ s.nextId + 2
        omega)
  have hotypes : ObjTypesOK { nodes := ((s.nodes ++ [projNodeWithMember s.nextId nm (s.nextId + 1)]) ++ [objNodeAt (s.nextId + 1) "object"]) ++ [rootNodeWithMember (s.nextId + 2) s.nextId], nextId := s.nextId + 3, conns := s.conns } := by
    refine objTypesOK_of_member_types hwf3.1 ?_
    intro p hp m hm o ho
    have hpfacts := mem_get_projects.1 hp
    rcases List.mem_append.1 hpfacts.1 with hmem1 | hmem1
    · rcases List.mem_append.1 hmem1 with hmem2 | hmem2
      · rcases List.mem_append.1 hmem2 with hold | hPmem
        · have hmlt : m < s.nextId := hwf.2.2.1 p hold m hm
          have hfs : findNode s m = some o := by
            rw [findNode_append_none (d := 0) (e := []) (fun n hn => by rw [List.mem_singleton] at hn; subst hn; show s.nextId + 2 ≠ m; omega),
              findNode_append_none (d := 0) (e := []) (fun n hn => by rw [List.mem_singleton] at hn; subst hn; show s.nextId + 1 ≠ m; omega),
              findNode_append_none (d := 0) (e := []) (fun n hn => by rw [List.mem_singleton] at hn; subst hn; show s.nextId ≠ m; omega)] at ho
            exact ho
          have hpproj : p ∈ get_projects s := mem_get_projects.2 ⟨hold, hpfacts.2.1, hpfacts.2.2⟩
          have hfp : findNode s p.nid = some p := findNode_of_mem hwf.1 hold
          have hoin : o ∈ get_objects s p.nid := by
            rw [get_objects_eq_of_find hfp hpfacts.2.2]
            exact List.mem_filterMap.2 ⟨m, hm, hfs⟩
          exact hobj p hpproj o hoin
        · rw [List.mem_singleton] at hPmem
          subst hPmem
          rw [List.mem_singleton.1 hm] at ho
          rw [← Option.some.inj (hfo3.symm.trans ho)]
          rfl
      · rw [List.mem_singleton] at hmem2
        subst hmem2
        exact absurd hm (by simp [objNodeAt])
    · rw [List.mem_singleton] at hmem1
      subst hmem1
      rw [List.mem_singleton.1 hm] at ho
      rw [← Option.some.inj (hfp3.symm.trans ho)]
      rfl
  obtain ⟨s4, hs4, hb1, hb2, hb3⟩ := create_project_core { nodes := ((s.nodes ++ [projNodeWithMember s.nextId nm (s.nextId + 1)]) ++ [objNodeAt (s.nextId + 1) "object"]) ++ [rootNodeWithMember (s.nextId + 2) s.nextId], nextId := s.nextId + 3, conns := s.conns } s.nextId (s.nextId + 1) (s.nextId + 2) nm hwf3 hotypes (projNodeWithMember s.nextId nm (s.nextId + 1)) hfp3 rfl rfl rfl (List.mem_singleton.2 rfl) (objNodeAt (s.nextId + 1) "object") hfo3 rfl rfl rfl (rootNodeWithMember (s.nextId + 2) s.nextId) hfr3 rfl rfl (List.mem_singleton.2 rfl)
  have hgpr2 : get_project_root (create_object (setAttrForce (createNode s NType.objectSet nm).1 s.nextId ATTR_SURFACING_PROJECT "") s.nextId none).1 = some ({ nodes := ((s.nodes ++ [projNodeWithMember s.nextId nm (s.nextId + 1)]) ++ [objNodeAt (s.nextId + 1) "object"]) ++ [rootNodeAt (s.nextId + 2)], nextId := s.nextId + 3, conns := s.conns }, s.nextId + 2) := by
    rw [hpre]
    exact hgpr
  refine ⟨({ nodes := ((s.nodes ++ [projNodeWithMember s.nextId nm (s.nextId + 1)]) ++ [objNodeAt (s.nextId + 1) "object"]) ++ [rootNodeAt (s.nextId + 2)], nextId := s.nextId + 3, conns := s.conns }, s.nextId + 2), s4, hgpr2, ?_, hb1, hb2, hb3⟩
  show update_partition (addMember { nodes := ((s.nodes ++ [projNodeWithMember s.nextId nm (s.nextId + 1)]) ++ [objNodeAt (s.nextId + 1) "object"]) ++ [rootNodeAt (s.nextId + 2)], nextId := s.nextId + 3, conns := s.conns } (s.nextId + 2) s.nextId) = some s4
  rw [hadd]
  exact hs4

/-- The single-root branch of create_project: the existing root receives the
new project, and the project, its default object and the root membership all
survive update_partition. -/
theorem create_project_root_single (s : Scene) (nm : String) (r : Node)
    (hwf : SceneWF s) (hobj : ObjTypesOK s) (hone : rootNodes s = [r]) :
    ∃ rt s4,
      get_project_root (create_object (setAttrForce (createNode s NType.objectSet nm).1 s.nextId ATTR_SURFACING_PROJECT "") s.nextId none).1 = some rt ∧
      update_partition (addMember rt.1 rt.2 s.nextId) = some s4 ∧
      (∃ pn, findNode s4 s.nextId = some pn ∧ pn.name = nm ∧ is_project pn = true) ∧
      (∃ ob ∈ get_objects s4 s.nextId, ob.name = "object" ∧ hasAttr ob ATTR_SURFACING_OBJECT = true) ∧
      (∃ r' ∈ rootNodes s4, s.nextId ∈ r'.members) := by
  have hpre : (create_object (setAttrForce (createNode s NType.objectSet nm).1 s.nextId ATTR_SURFACING_PROJECT "") s.nextId none).1 = { nodes := (s.nodes ++ [projNodeWithMember s.nextId nm (s.nextId + 1)]) ++ [objNodeAt (s.nextId + 1) "object"], nextId := s.nextId + 2, conns := s.conns } :=
    create_project_start_eq s nm hwf
  have hwf1 : SceneWF (setAttrForce (createNode s NType.objectSet nm).1 s.nextId ATTR_SURFACING_PROJECT "") :=
    SceneWF_setAttrForce (SceneWF_createNode hwf)
  have hwf2 : SceneWF { nodes := (s.nodes ++ [projNodeWithMember s.nextId nm (s.nextId + 1)]) ++ [objNodeAt (s.nextId + 1) "object"], nextId := s.nextId + 2, conns := s.conns } := by
    rw [← hpre]
    exact SceneWF_addMember (SceneWF_setAttrForce (SceneWF_createNode hwf1)) (Nat.lt_succ_self _)
  have hrin : r ∈ rootNodes s := by
    rw [hone]
    exact List.mem_singleton.2 rfl
  have hrfacts := mem_rootNodes.1 hrin
  have hrlt : r.nid < s.nextId := hwf.2.1 r hrfacts.1
  have hne0 : s.nextId ≠ r.nid := by omega
  have hne1 : s.nextId + 1 ≠ r.nid := by omega
  have hroots2 : rootNodes { nodes := (s.nodes ++ [projNodeWithMember s.nextId nm (s.nextId + 1)]) ++ [objNodeAt (s.nextId + 1) "object"], nextId := s.nextId + 2, conns := s.conns } = [r] := by
    rw [rootNodes_fresh_pair]
    exact hone
  have hgpr : get_project_root { nodes := (s.nodes ++ [projNodeWithMember s.nextId nm (s.nextId + 1)]) ++ [objNodeAt (s.nextId + 1) "object"], nextId := s.nextId + 2, conns := s.conns } = some ({ nodes := (s.nodes ++ [projNodeWithMember s.nextId nm (s.nextId + 1)]) ++ [objNodeAt (s.nextId + 1) "object"], nextId := s.nextId + 2, conns := s.conns }, r.nid) := by
    unfold get_project_root
    rw [hroots2]
  have hwf3 : SceneWF (addMember { nodes := (s.nodes ++ [projNodeWithMember s.nextId nm (s.nextId + 1)]) ++ [objNodeAt (s.nextId + 1) "object"], nextId := s.nextId + 2, conns := s.conns } r.nid s.nextId) :=
    SceneWF_addMember hwf2 (show s.nextId < s.nextId + 2 from by omega)
  have hupd : ∀ j, findNode (addMember { nodes := (s.nodes ++ [projNodeWithMember s.nextId nm (s.nextId + 1)]) ++ [objNodeAt (s.nextId + 1) "object"], nextId := s.nextId + 2, conns := s.conns } r.nid s.nextId) j = (findNode { nodes := (s.nodes ++ [projNodeWithMember s.nextId nm (s.nextId + 1)]) ++ [objNodeAt (s.nextId + 1) "object"], nextId := s.nextId + 2, conns := s.conns } j).map (fun n => if n.nid = r.nid then addMemFn s.nextId n else n) :=
    fun j => findNode_updateNode _ r.nid j (addMemFn s.nextId) (fun x => addMemFn_nid s.nextId x)
  have hfp2 : findNode { nodes := (s.nodes ++ [projNodeWithMember s.nextId nm (s.nextId + 1)]) ++ [objNodeAt (s.nextId + 1) "object"], nextId := s.nextId + 2, conns := s.conns } s.nextId = some (projNodeWithMember s.nextId nm (s.nextId + 1)) := by
    rw [findNode_append_other (d := 0) (e := []) (show (objNodeAt (s.nextId + 1) "object").nid ≠ s.nextId from by show s.nextId + 1 ≠ s.nextId; omega)]
    exact findNode_append_new (wf_fresh hwf)
  have hfo2 : findNode { nodes := (s.nodes ++ [projNodeWithMember s.nextId nm (s.nextId + 1)]) ++ [objNodeAt (s.nextId + 1) "object"], nextId := s.nextId + 2, conns := s.conns } (s.nextId + 1) = some (objNodeAt (s.nextId + 1) "object") := by
    exact findNode_append_new (fun n hn => by
      show n.nid ≠ s.nextId + 1
      rcases List.mem_append.1 hn with h | h
      · have := hwf.2.1 n h
        omega
      · rw [List.mem_singleton] at h
        subst h
        show s.nextId ≠ s.nextId + 1
        omega)
  have hfr2 : findNode { nodes := (s.nodes ++ [projNodeWithMember s.nextId nm (s.nextId + 1)]) ++ [objNodeAt (s.nextId + 1) "object"], nextId := s.nextId + 2, conns := s.conns } r.nid = some r := by
    rw [findNode_append_none (d := 0) (e := []) (fun n hn => by rw [List.mem_singleton] at hn; subst hn; show s.nextId + 1 ≠ r.nid; omega),
      findNode_append_none (d := 0) (e := []) (fun n hn => by rw [List.mem_singleton] at hn; subst hn; show s.nextId ≠ r.nid; omega)]
    exact findNode_of_mem hwf.1 hrfacts.1
  have hfp3 : findNode (addMember { nodes := (s.nodes ++ [projNodeWithMember s.nextId nm (s.nextId + 1)]) ++ [objNodeAt (s.nextId + 1) "object"], nextId := s.nextId + 2, conns := s.conns } r.nid s.nextId) s.nextId = some (projNodeWithMember s.nextId nm (s.nextId + 1)) := by
    rw [hupd s.nextId, hfp2]
    simp [projNodeWithMember, hne0]
  have hfo3 : findNode (addMember { nodes := (s.nodes ++ [projNodeWithMember s.nextId nm (s.nextId + 1)]) ++ [objNodeAt (s.nextId + 1) "object"], nextId := s.nextId + 2, conns := s.conns } r.nid s.nextId) (s.nextId + 1) = some (objNodeAt (s.nextId + 1) "object") := by
    rw [hupd (s.nextId + 1), hfo2]
    simp [objNodeAt, hne1]
  have hfr3 : findNode (addMember { nodes := (s.nodes ++ [projNodeWithMember s.nextId nm (s.nextId + 1)]) ++ [objNodeAt (s.nextId + 1) "object"], nextId := s.nextId + 2, conns := s.conns } r.nid s.nextId) r.nid = some (addMemFn s.nextId r) := by
    rw [hupd r.nid, hfr2]
    simp
  have hotypes : ObjTypesOK (addMember { nodes := (s.nodes ++ [projNodeWithMember s.nextId nm (s.nextId + 1)]) ++ [objNodeAt (s.nextId + 1) "object"], nextId := s.nextId + 2, conns := s.conns } r.nid s.nextId) := by
    refine objTypesOK_of_member_types hwf3.1 ?_
    intro p hp m hm o ho
    have hpfacts := mem_get_projects.1 hp
    have hpmem' : p ∈ ((s.nodes ++ [projNodeWithMember s.nextId nm (s.nextId + 1)]) ++ [objNodeAt (s.nextId + 1) "object"]).map (fun n => if n.nid = r.nid then addMemFn s.nextId n else n) := hpfacts.1
    obtain ⟨p0, hp0mem, hgp⟩ := List.mem_map.1 hpmem'
    have htrans : ∀ j, j < s.nextId → ∀ o2, findNode (addMember { nodes := (s.nodes ++ [projNodeWithMember s.nextId nm (s.nextId + 1)]) ++ [objNodeAt (s.nextId + 1) "object"], nextId := s.nextId + 2, conns := s.conns } r.nid s.nextId) j = some o2 → ∃ b, findNode s j = some b ∧ o2.ntype = b.ntype := by
      intro j hj o2 ho2
      rw [hupd j] at ho2
      have hS2j : findNode { nodes := (s.nodes ++ [projNodeWithMember s.nextId nm (s.nextId + 1)]) ++ [objNodeAt (s.nextId + 1) "object"], nextId := s.nextId + 2, conns := s.conns } j = findNode s j := by
        rw [findNode_append_none (d := 0) (e := []) (fun n hn => by rw [List.mem_singleton] at hn; subst hn; show s.nextId + 1 ≠ j; omega),
          findNode_append_none (d := 0) (e := []) (fun n hn => by rw [List.mem_singleton] at hn; subst hn; show s.nextId ≠ j; omega)]
        rfl
      rw [hS2j] at ho2
      cases hb : findNode s j with
      | none =>
        rw [hb] at ho2
        cases ho2
      | some b =>
        rw [hb] at ho2
        refine ⟨b, rfl, ?_⟩
        have hob : o2 = if b.nid = r.nid then addMemFn s.nextId b else b := (Option.some.inj ho2).symm
        rw [hob]
        by_cases hc : b.nid = r.nid
        · rw [if_pos hc]
          exact addMemFn_ntype s.nextId b
        · rw [if_neg hc]
    rcases List.mem_append.1 hp0mem with hmem2 | hmem2
    · rcases List.mem_append.1 hmem2 with hold | hPmem
      · by_cases hc : p0.nid = r.nid
        · have hp0r : p0 = r := List.inj_on_of_nodup_map hwf.1 hold hrfacts.1 hc
          have hpeq : p = addMemFn s.nextId r := by
            rw [← hgp, hp0r]
            simp
          have hrproj : hasAttr r ATTR_SURFACING_PROJECT = true := by
            have hx := hpfacts.2.2
            rw [hpeq] at hx
            unfold hasAttr at hx ⊢
            rw [addMemFn_attrs] at hx
            exact hx
          rcases addMemFn_mem_cases s.nextId r (hpeq ▸ hm) with hmr | hmk
          · have hmlt : m < s.nextId := hwf.2.2.1 r hrfacts.1 m hmr
            obtain ⟨b, hb, hty⟩ := htrans m hmlt o ho
            have hbin : b ∈ get_objects s r.nid := by
              rw [get_objects_eq_of_find (findNode_of_mem hwf.1 hrfacts.1) hrproj]
              exact List.mem_filterMap.2 ⟨m, hmr, hb⟩
            rw [hty]
            exact hobj r (mem_get_projects.2 ⟨hrfacts.1, hrfacts.2.1, hrproj⟩) b hbin
          · rw [hmk] at ho
            rw [← Option.some.inj (hfp3.symm.trans ho)]
            rfl
        · have hpeq : p = p0 := by
            rw [← hgp]
            simp [hc]
          have hmlt : m < s.nextId := hwf.2.2.1 p0 hold m (hpeq ▸ hm)
          obtain ⟨b, hb, hty⟩ := htrans m hmlt o ho
          have hbin : b ∈ get_objects s p0.nid := by
            rw [get_objects_eq_of_find (findNode_of_mem hwf.1 hold) (hpeq ▸ hpfacts.2.2)]
            exact List.mem_filterMap.2 ⟨m, hpeq ▸ hm, hb⟩
          rw [hty]
          exact hobj p0 (mem_get_projects.2 ⟨hold, hpeq ▸ hpfacts.2.1, hpeq ▸ hpfacts.2.2⟩) b hbin
      · rw [List.mem_singleton] at hPmem
        subst hPmem
        have hpeq : p = projNodeWithMember s.nextId nm (s.nextId + 1) := by
          rw [← hgp]
          simp [projNodeWithMember, hne0]
        subst hpeq
        rw [List.mem_singleton.1 hm] at ho
        rw [← Option.some.inj (hfo3.symm.trans ho)]
        rfl
    · rw [List.mem_singleton] at hmem2
      subst hmem2
      have hpeq : p = objNodeAt (s.nextId + 1) "object" := by
        rw [← hgp]
        simp [objNodeAt, hne1]
      subst hpeq
      exact absurd hm (by simp [objNodeAt])
  obtain ⟨s4, hs4, hb1, hb2, hb3⟩ := create_project_core (addMember { nodes := (s.nodes ++ [projNodeWithMember s.nextId nm (s.nextId + 1)]) ++ [objNodeAt (s.nextId + 1) "object"], nextId := s.nextId + 2, conns := s.conns } r.nid s.nextId) s.nextId (s.nextId + 1) r.nid nm hwf3 hotypes (projNodeWithMember s.nextId nm (s.nextId + 1)) hfp3 rfl rfl rfl (List.mem_singleton.2 rfl) (objNodeAt (s.nextId + 1) "object") hfo3 rfl rfl rfl (addMemFn s.nextId r) hfr3 (by rw [addMemFn_ntype]; exact hrfacts.2.1) (by unfold hasAttr; rw [addMemFn_attrs]; exact hrfacts.2.2) (addMemFn_mem_self s.nextId r)
  have hgpr2 : get_project_root (create_object (setAttrForce (createNode s NType.objectSet nm).1 s.nextId ATTR_SURFACING_PROJECT "") s.nextId none).1 = some ({ nodes := (s.nodes ++ [projNodeWithMember s.nextId nm (s.nextId + 1)]) ++ [objNodeAt (s.nextId + 1) "object"], nextId := s.nextId + 2, conns := s.conns }, r.nid) := by
    rw [hpre]
    exact hgpr
  exact ⟨({ nodes := (s.nodes ++ [projNodeWithMember s.nextId nm (s.nextId + 1)]) ++ [objNodeAt (s.nextId + 1) "object"], nextId := s.nextId + 2, conns := s.conns }, r.nid), s4, hgpr2, hs4, hb1, hb2, hb3⟩

/-- Claim C10: for every name argument, create_project creates a new project
node under a fresh id, adds it to the root, and always creates one extra
default surfacing Object named "object" as a member of the newly created
project, even though the caller supplied an explicit project name and
requested no objects. -/
theorem create_project_always_creates_default_object (s : Scene)
    (name : Option String) (hwf : SceneWF s) (hobj : ObjTypesOK s)
    (hroot : (rootNodes s).length ≤ 1) :
    ∃ s4, create_project s name = some (s4, s.nextId) ∧
      (∀ m ∈ s.nodes, m.nid ≠ s.nextId) ∧
      (∃ pn, findNode s4 s.nextId = some pn ∧ pn.name = orDefault name "project" ∧ is_project pn = true) ∧
      (∃ ob ∈ get_objects s4 s.nextId, ob.name = "object" ∧ hasAttr ob ATTR_SURFACING_OBJECT = true) ∧
      (∃ r ∈ rootNodes s4, s.nextId ∈ r.members) := by
  have hbranch : ∃ rt s4,
      get_project_root (create_object (setAttrForce (createNode s NType.objectSet (orDefault name "project")).1 s.nextId ATTR_SURFACING_PROJECT "") s.nextId none).1 = some rt ∧
      update_partition (addMember rt.1 rt.2 s.nextId) = some s4 ∧
      (∃ pn, findNode s4 s.nextId = some pn ∧ pn.name = orDefault name "project" ∧ is_project pn = true) ∧
      (∃ ob ∈ get_objects s4 s.nextId, ob.name = "object" ∧ hasAttr ob ATTR_SURFACING_OBJECT = true) ∧
      (∃ r ∈ rootNodes s4, s.nextId ∈ r.members) := by
    cases hr : rootNodes s with
    | nil => exact create_project_root_empty s (orDefault name "project") hwf hobj hr
    | cons r tail =>
      cases tail with
      | nil => exact create_project_root_single s (orDefault name "project") r hwf hobj hr
      | cons b t2 =>
        have hlen : (rootNodes s).length = t2.length + 1 + 1 := by
          rw [hr]
          rfl
        exact absurd hroot (by omega)
  obtain ⟨rt, s4, hrt, hs4, hb1, hb2, hb3⟩ := hbranch
  refine ⟨s4, ?_, wf_fresh hwf, hb1, hb2, hb3⟩
  show Option.bind (get_project_root (create_object (setAttrForce (createNode s NType.objectSet (orDefault name "project")).1 s.nextId ATTR_SURFACING_PROJECT "") s.nextId none).1) (fun rt => Option.bind (update_partition (addMember rt.1 rt.2 s.nextId)) (fun s4 => some (s4, s.nextId))) = some (s4, s.nextId)
  rw [hrt]
  show Option.bind (update_partition (addMember rt.1 rt.2 s.nextId)) (fun s4 => some (s4, s.nextId)) = some (s4, s.nextId)
  rw [hs4]
  rfl

/-- Witness for claim C10: on the empty scene with an explicit name "proj",
create_project creates the project and its extra default object "object". -/
theorem create_project_always_creates_default_object_witness :
    ∃ s4, create_project sceneEmpty (some "proj") = some (s4, sceneEmpty.nextId) ∧
      (∀ m ∈ sceneEmpty.nodes, m.nid ≠ sceneEmpty.nextId) ∧
      (∃ pn, findNode s4 sceneEmpty.nextId = some pn ∧ pn.name = orDefault (some "proj") "project" ∧ is_project pn = true) ∧
      (∃ ob ∈ get_objects s4 sceneEmpty.nextId, ob.name = "object" ∧ hasAttr ob ATTR_SURFACING_OBJECT = true) ∧
      (∃ r ∈ rootNodes s4, sceneEmpty.nextId ∈ r.members) :=
  create_project_always_creates_default_object sceneEmpty (some "proj") (by decide)
    (fun p hp => absurd hp (by simp [get_projects, lsType, sceneEmpty]))
    (by decide)

/-! Claim C6: remove_invalid_characters strips underscores and is idempotent.
Every intermediate state of the run is the base scene with names remapped. -/

/-- Rewrite a node name through an id-indexed naming function. -/
def nameUpd (φ : Nat → String) (n : Node) : Node :=
  { n with name := φ n.nid }

/-- The base scene with every node name remapped: renames touch nothing else. -/
def mapNames (φ : Nat → String) (t : Scene) : Scene :=
  { t with nodes := t.nodes.map (nameUpd φ) }

/-- The name found under id i carries no underscore. -/
def CleanAt (t : Scene) (φ : Nat → String) (i : Nat) : Prop :=
  ∀ n, findNode (mapNames φ t) i = some n → hasUnderscore n.name = false

theorem any_filter_under (l : List Char) :
    (l.filter (fun c => decide (c ≠ '_'))).any (fun c => decide (c = '_')) = false := by
  induction l with
  | nil => rfl
  | cons c t ih =>
    by_cases hc : c = '_'
    · simp [hc, ih]
    · simp [hc, ih]

theorem hasUnderscore_strip (x : String) :
    hasUnderscore (stripUnderscores x) = false :=
  any_filter_under x.data

theorem findNode_mapNames (φ : Nat → String) (t : Scene) (i : Nat) :
    findNode (mapNames φ t) i = (findNode t i).map (nameUpd φ) := by
  unfold findNode mapNames nameUpd
  rw [List.find?_map]
  have hp : ((fun n => decide (n.nid = i)) ∘ fun n : Node => { n with name := φ n.nid }) =
      (fun n : Node => decide (n.nid = i)) := by
    funext n
    rfl
  rw [hp]

theorem get_projects_mapNames (φ : Nat → String) (t : Scene) :
    get_projects (mapNames φ t) = (get_projects t).map (nameUpd φ) := by
  unfold get_projects lsType mapNames
  rw [List.filter_map, List.filter_map]
  rfl

theorem rootNodes_mapNames (φ : Nat → String) (t : Scene) :
    rootNodes (mapNames φ t) = (rootNodes t).map (nameUpd φ) := by
  unfold rootNodes lsType mapNames
  rw [List.filter_map, List.filter_map]
  rfl

theorem get_objects_mapNames (φ : Nat → String) (t : Scene) (pid : Nat) :
    get_objects (mapNames φ t) pid = (get_objects t pid).map (nameUpd φ) := by
  unfold get_objects
  rw [findNode_mapNames]
  cases hf : findNode t pid with
  | none => rfl
  | some p =>
    show (if is_project (nameUpd φ p) then (nameUpd φ p).members.filterMap (findNode (mapNames φ t)) else []) = (if is_project p then p.members.filterMap (findNode t) else []).map (nameUpd φ)
    by_cases hip : is_project p = true
    · rw [if_pos (show is_project (nameUpd φ p) = true from hip), if_pos hip]
      rw [List.map_filterMap]
      show p.members.filterMap (findNode (mapNames φ t)) = _
      apply List.filterMap_congr
      intro m _
      rw [findNode_mapNames]
    · rw [if_neg (show ¬ is_project (nameUpd φ p) = true from hip), if_neg hip]
      rfl

theorem SceneWF_mapNames (φ : Nat → String) {t : Scene} (hwf : SceneWF t) :
    SceneWF (mapNames φ t) := by
  obtain ⟨h1, h2, h3, h4, h5⟩ := hwf
  refine ⟨?_, ?_, ?_, ?_, ?_⟩
  · show ((t.nodes.map (nameUpd φ)).map Node.nid).Nodup
    rw [List.map_map]
    have he : (Node.nid ∘ nameUpd φ) = Node.nid := by
      funext n
      rfl
    rw [he]
    exact h1
  · intro n hn
    obtain ⟨b, hb, rfl⟩ := List.mem_map.1 hn
    exact h2 b hb
  · intro n hn m hm
    obtain ⟨b, hb, rfl⟩ := List.mem_map.1 hn
    exact h3 b hb m hm
  · intro n hn j hj
    obtain ⟨b, hb, rfl⟩ := List.mem_map.1 hn
    exact h4 b hb j hj
  · exact h5

theorem mapNames_self {t : Scene} (hwf : SceneWF t) :
    mapNames (fun i => nameOf t i) t = t := by
  unfold mapNames
  rw [List.map_congr_left (g := id), List.map_id]
  intro n hn
  show { n with name := nameOf t n.nid } = n
  unfold nameOf
  rw [findNode_of_mem hwf.1 hn]

theorem renameStep_clean {a : Scene} {i : Nat} {n : Node}
    (hf : findNode a i = some n) (hc : hasUnderscore n.name = false) :
    renameStep a i = a := by
  unfold renameStep
  rw [hf]
  show (if hasUnderscore n.name = true then renameNode a i (stripUnderscores n.name) else a) = a
  rw [hc]
  rfl

theorem foldl_fixed {α β : Type} (f : α → β → α) :
    ∀ (l : List β) (a : α), (∀ x ∈ l, f a x = a) → l.foldl f a = a := by
  intro l
  induction l with
  | nil => intro a h; rfl
  | cons x xs ih =>
    intro a h
    rw [List.foldl_cons, h x (List.mem_cons_self x xs)]
    exact ih a (fun y hy => h y (List.mem_cons_of_mem x hy))

theorem renameStep_mapNames (φ : Nat → String) (t : Scene) (j : Nat) :
    ∃ φ', renameStep (mapNames φ t) j = mapNames φ' t ∧
      (∀ i, φ' i = φ i ∨ hasUnderscore (φ' i) = false) ∧
      CleanAt t φ' j := by
  cases hf : findNode t j with
  | none =>
    refine ⟨φ, ?_, fun i => Or.inl rfl, ?_⟩
    · unfold renameStep
      rw [findNode_mapNames, hf]
      rfl
    · intro n hn
      rw [findNode_mapNames, hf] at hn
      cases hn
  | some n0 =>
    have hnid : n0.nid = j := findNode_nid hf
    by_cases hu : hasUnderscore (φ n0.nid) = true
    · refine ⟨fun i => if i = j then stripUnderscores (φ j) else φ i, ?_, ?_, ?_⟩
      · have hnodes : (t.nodes.map (nameUpd φ)).map (fun n => if n.nid = j then { n with name := stripUnderscores (φ n0.nid) } else n) = t.nodes.map (nameUpd (fun i => if i = j then stripUnderscores (φ j) else φ i)) := by
          rw [List.map_map]
          apply List.map_congr_left
          intro x _
          show (if (nameUpd φ x).nid = j then { nameUpd φ x with name := stripUnderscores (φ n0.nid) } else nameUpd φ x) = nameUpd (fun i => if i = j then stripUnderscores (φ j) else φ i) x
          by_cases hx : x.nid = j
          · simp [nameUpd, hx, hnid]
          · simp [nameUpd, hx]
        unfold renameStep
        rw [findNode_mapNames, hf]
        show (if hasUnderscore (φ n0.nid) = true then renameNode (mapNames φ t) j (stripUnderscores (φ n0.nid)) else mapNames φ t) = _
        rw [if_pos hu]
        show ({ nodes := (t.nodes.map (nameUpd φ)).map (fun n => if n.nid = j then { n with name := stripUnderscores (φ n0.nid) } else n), nextId := t.nextId, conns := t.conns } : Scene) = _
        rw [hnodes]
        rfl
      · intro i
        by_cases hi : i = j
        · refine Or.inr ?_
          show hasUnderscore (if i = j then stripUnderscores (φ j) else φ i) = false
          rw [if_pos hi]
          exact hasUnderscore_strip (φ j)
        · refine Or.inl ?_
          show (if i = j then stripUnderscores (φ j) else φ i) = φ i
          rw [if_neg hi]
      · intro n hn
        rw [findNode_mapNames, hf] at hn
        have hne : n = nameUpd (fun i => if i = j then stripUnderscores (φ j) else φ i) n0 := (Option.some.inj hn).symm
        rw [hne]
        show hasUnderscore (if n0.nid = j then stripUnderscores (φ j) else φ n0.nid) = false
        rw [if_pos hnid]
        exact hasUnderscore_strip (φ j)
    · have hu' : hasUnderscore (φ n0.nid) = false := by
        cases hb : hasUnderscore (φ n0.nid) with
        | true => exact absurd hb hu
        | false => rfl
      refine ⟨φ, ?_, fun i => Or.inl rfl, ?_⟩
      · unfold renameStep
        rw [findNode_mapNames, hf]
        show (if hasUnderscore (φ n0.nid) = true then renameNode (mapNames φ t) j (stripUnderscores (φ n0.nid)) else mapNames φ t) = mapNames φ t
        rw [hu']
        rfl
      · intro n hn
        rw [findNode_mapNames, hf] at hn
        have hne : n = nameUpd φ n0 := (Option.some.inj hn).symm
        rw [hne]
        show hasUnderscore (φ n0.nid) = false
        exact hu'

theorem clean_mono (φ φ' : Nat → String) (t : Scene)
    (hstep : ∀ i, φ' i = φ i ∨ hasUnderscore (φ' i) = false) (i : Nat)
    (h : CleanAt t φ i) : CleanAt t φ' i := by
  intro n hn
  rw [findNode_mapNames] at hn
  cases hf : findNode t i with
  | none =>
    rw [hf] at hn
    cases hn
  | some b =>
    rw [hf] at hn
    have hnb : n = nameUpd φ' b := (Option.some.inj hn).symm
    rcases hstep b.nid with he | hc
    · have hb' : hasUnderscore (φ b.nid) = false := by
        apply h (nameUpd φ b)
        rw [findNode_mapNames, hf]
        rfl
      rw [hnb]
      show hasUnderscore (φ' b.nid) = false
      rw [he]
      exact hb'
    · rw [hnb]
      show hasUnderscore (φ' b.nid) = false
      exact hc

theorem inner_fold_clean (t : Scene) (os : List Node) :
    ∀ φ : Nat → String, ∃ φ',
      os.foldl (fun a o => renameStep a o.nid) (mapNames φ t) = mapNames φ' t ∧
      (∀ i, CleanAt t φ i → CleanAt t φ' i) ∧
      (∀ o ∈ os, CleanAt t φ' o.nid) := by
  induction os with
  | nil =>
    intro φ
    exact ⟨φ, rfl, fun i h => h, fun o ho => absurd ho (List.not_mem_nil o)⟩
  | cons o os ih =>
    intro φ
    obtain ⟨φ₁, he1, hp1, hc1⟩ := renameStep_mapNames φ t o.nid
    obtain ⟨φ', he2, hmono2, hos2⟩ := ih φ₁
    refine ⟨φ', ?_, ?_, ?_⟩
    · rw [List.foldl_cons]
      show os.foldl (fun a o => renameStep a o.nid) (renameStep (mapNames φ t) o.nid) = mapNames φ' t
      rw [he1]
      exact he2
    · intro i h
      exact hmono2 i (clean_mono φ φ₁ t hp1 i h)
    · intro o2 ho2
      rcases List.mem_cons.1 ho2 with h2 | h2
      · rw [h2]
        exact hmono2 o.nid hc1
      · exact hos2 o2 h2

theorem outer_fold_clean (t : Scene) (ps : List Node) :
    ∀ φ : Nat → String, ∃ φ',
      ps.foldl (fun a p => (get_objects (renameStep a p.nid) p.nid).foldl (fun a2 o => renameStep a2 o.nid) (renameStep a p.nid)) (mapNames φ t) = mapNames φ' t ∧
      (∀ i, CleanAt t φ i → CleanAt t φ' i) ∧
      (∀ p ∈ ps, CleanAt t φ' p.nid ∧
        (∀ o ∈ get_objects t p.nid, CleanAt t φ' o.nid)) := by
  induction ps with
  | nil =>
    intro φ
    exact ⟨φ, rfl, fun i h => h, fun p hp => absurd hp (List.not_mem_nil p)⟩
  | cons p ps ih =>
    intro φ
    obtain ⟨φ₁, he1, hp1, hc1⟩ := renameStep_mapNames φ t p.nid
    obtain ⟨φ₂, he2, hmono2, hos2⟩ := inner_fold_clean t (get_objects (mapNames φ₁ t) p.nid) φ₁
    obtain ⟨φ', he3, hmono3, hps3⟩ := ih φ₂
    refine ⟨φ', ?_, ?_, ?_⟩
    · rw [List.foldl_cons]
      show ps.foldl (fun a p => (get_objects (renameStep a p.nid) p.nid).foldl (fun a2 o => renameStep a2 o.nid) (renameStep a p.nid)) ((get_objects (renameStep (mapNames φ t) p.nid) p.nid).foldl (fun a2 o => renameStep a2 o.nid) (renameStep (mapNames φ t) p.nid)) = mapNames φ' t
      rw [he1, he2]
      exact he3
    · intro i h
      exact hmono3 i (hmono2 i (clean_mono φ φ₁ t hp1 i h))
    · intro q hq
      rcases List.mem_cons.1 hq with h2 | h2
      · rw [h2]
        refine ⟨hmono3 p.nid (hmono2 p.nid hc1), ?_⟩
        intro o hoin
        have hin : nameUpd φ₁ o ∈ get_objects (mapNames φ₁ t) p.nid := by
          rw [get_objects_mapNames]
          exact List.mem_map_of_mem _ hoin
        have hcl := hos2 (nameUpd φ₁ o) hin
        exact hmono3 o.nid hcl
      · exact hps3 q h2

/-- A three-node scene (root, project "my_proj", object "obj_a") used to
witness claim C6. -/
def sceneC6 : Scene :=
  { nodes := [rootNodeWithMember 0 1, projNodeWithMember 1 "my_proj" 2, objNodeAt 2 "obj_a"], nextId := 3, conns := [] }

/-- Claim C6: remove_invalid_characters strips every underscore from the name
of every surfacing Project and every surfacing Object, and it is idempotent:
a second run returns the same scene unchanged. -/
theorem remove_invalid_characters_strips_and_idempotent (s : Scene)
    (hwf : SceneWF s) (hroot : (rootNodes s).length ≤ 1) :
    ∃ s', remove_invalid_characters s = some s' ∧
      (∀ p ∈ get_projects s', hasUnderscore p.name = false) ∧
      (∀ p ∈ get_projects s', ∀ o ∈ get_objects s' p.nid, hasUnderscore o.name = false) ∧
      remove_invalid_characters s' = some s' := by
  have hsplit : ∃ t0 rootid, get_project_root s = some (t0, rootid) ∧ SceneWF t0 ∧ ∃ r0, rootNodes t0 = [r0] := by
    cases hr : rootNodes s with
    | nil =>
      refine ⟨{ nodes := s.nodes ++ [rootNodeAt s.nextId], nextId := s.nextId + 1, conns := s.conns }, s.nextId, ?_, ?_, ?_⟩
      · unfold get_project_root
        rw [hr]
        rw [create_project_root_node_eq s hwf]
      · have e : (create_project_root_node s).1 = { nodes := s.nodes ++ [rootNodeAt s.nextId], nextId := s.nextId + 1, conns := s.conns } := by
          rw [create_project_root_node_eq s hwf]
        rw [← e]
        exact SceneWF_setAttrForce (SceneWF_createNode hwf)
      · refine ⟨rootNodeAt s.nextId, ?_⟩
        rw [rootNodes_shape s.nodes [rootNodeAt s.nextId] (s.nextId + 1) 0 0 s.conns [] []]
        rw [rootNodes_nodes s 0 []]
        rw [hr]
        rfl
    | cons r tail =>
      cases tail with
      | nil =>
        refine ⟨s, r.nid, ?_, hwf, ⟨r, hr⟩⟩
        unfold get_project_root
        rw [hr]
      | cons b t2 =>
        have hlen : (rootNodes s).length = t2.length + 1 + 1 := by
          rw [hr]
          rfl
        exact absurd hroot (by omega)
  obtain ⟨t0, rootid, hgpr, hwf0, r0, hr0⟩ := hsplit
  obtain ⟨φ', hfold, hmono, hps⟩ := outer_fold_clean t0 (get_projects t0) (fun i => nameOf t0 i)
  rw [mapNames_self hwf0] at hfold
  have hF1 : ∀ p ∈ get_projects (mapNames φ' t0), hasUnderscore p.name = false := by
    intro p' hp'
    rw [get_projects_mapNames] at hp'
    obtain ⟨p, hpin, rfl⟩ := List.mem_map.1 hp'
    have hfp : findNode t0 p.nid = some p := findNode_of_mem hwf0.1 (mem_get_projects.1 hpin).1
    apply (hps p hpin).1 (nameUpd φ' p)
    rw [findNode_mapNames, hfp]
    rfl
  have hF2 : ∀ p ∈ get_projects (mapNames φ' t0), ∀ o ∈ get_objects (mapNames φ' t0) p.nid, hasUnderscore o.name = false := by
    intro p' hp' o' ho'
    rw [get_projects_mapNames] at hp'
    obtain ⟨p, hpin, rfl⟩ := List.mem_map.1 hp'
    have hfp : findNode t0 p.nid = some p := findNode_of_mem hwf0.1 (mem_get_projects.1 hpin).1
    have hobjs : get_objects (mapNames φ' t0) (nameUpd φ' p).nid = (get_objects t0 p.nid).map (nameUpd φ') := by
      show get_objects (mapNames φ' t0) p.nid = _
      rw [get_objects_mapNames]
    rw [hobjs] at ho'
    obtain ⟨o, hoin, rfl⟩ := List.mem_map.1 ho'
    have hfo : findNode t0 o.nid = some o := by
      have hx := hoin
      rw [get_objects_eq_of_find hfp (mem_get_projects.1 hpin).2.2] at hx
      obtain ⟨m2, hmm, hmf⟩ := List.mem_filterMap.1 hx
      have hno : o.nid = m2 := findNode_nid hmf
      rw [hno]
      exact hmf
    apply (hps p hpin).2 o hoin (nameUpd φ' o)
    rw [findNode_mapNames, hfo]
    rfl
  have hwfm : SceneWF (mapNames φ' t0) := SceneWF_mapNames φ' hwf0
  refine ⟨mapNames φ' t0, ?_, hF1, hF2, ?_⟩
  · show Option.bind (get_project_root s) (fun rt => some ((get_projects rt.1).foldl (fun a p => (get_objects (renameStep a p.nid) p.nid).foldl (fun a2 o => renameStep a2 o.nid) (renameStep a p.nid)) rt.1)) = some (mapNames φ' t0)
    rw [hgpr]
    show some ((get_projects t0).foldl (fun a p => (get_objects (renameStep a p.nid) p.nid).foldl (fun a2 o => renameStep a2 o.nid) (renameStep a p.nid)) t0) = some (mapNames φ' t0)
    rw [hfold]
  · have hrootm : rootNodes (mapNames φ' t0) = [nameUpd φ' r0] := by
      rw [rootNodes_mapNames, hr0]
      rfl
    have hgpr2 : get_project_root (mapNames φ' t0) = some (mapNames φ' t0, (nameUpd φ' r0).nid) := by
      unfold get_project_root
      rw [hrootm]
    have hstepid : ∀ q ∈ get_projects (mapNames φ' t0), (get_objects (renameStep (mapNames φ' t0) q.nid) q.nid).foldl (fun a2 o => renameStep a2 o.nid) (renameStep (mapNames φ' t0) q.nid) = mapNames φ' t0 := by
      intro q hq
      have hfq : findNode (mapNames φ' t0) q.nid = some q := findNode_of_mem hwfm.1 (mem_get_projects.1 hq).1
      have hrs : renameStep (mapNames φ' t0) q.nid = mapNames φ' t0 := renameStep_clean hfq (hF1 q hq)
      rw [hrs]
      apply foldl_fixed
      intro o ho
      have hfo : findNode (mapNames φ' t0) o.nid = some o := by
        have hx := ho
        rw [get_objects_eq_of_find hfq (mem_get_projects.1 hq).2.2] at hx
        obtain ⟨m2, hmm, hmf⟩ := List.mem_filterMap.1 hx
        have hno : o.nid = m2 := findNode_nid hmf
        rw [hno]
        exact hmf
      exact renameStep_clean hfo (hF2 q hq o ho)
    show Option.bind (get_project_root (mapNames φ' t0)) (fun rt => some ((get_projects rt.1).foldl (fun a p => (get_objects (renameStep a p.nid) p.nid).foldl (fun a2 o => renameStep a2 o.nid) (renameStep a p.nid)) rt.1)) = some (mapNames φ' t0)
    rw [hgpr2]
    show some ((get_projects (mapNames φ' t0)).foldl (fun a p => (get_objects (renameStep a p.nid) p.nid).foldl (fun a2 o => renameStep a2 o.nid) (renameStep a p.nid)) (mapNames φ' t0)) = some (mapNames φ' t0)
    rw [foldl_fixed _ _ _ hstepid]

/-- Witness for claim C6: on a scene whose project is named my_proj and whose
object is named obj_a, the run strips both names and is idempotent. -/
theorem remove_invalid_characters_strips_and_idempotent_witness :
    ∃ s', remove_invalid_characters sceneC6 = some s' ∧
      (∀ p ∈ get_projects s', hasUnderscore p.name = false) ∧
      (∀ p ∈ get_projects s', ∀ o ∈ get_objects s' p.nid, hasUnderscore o.name = false) ∧
      remove_invalid_characters s' = some s' :=
  remove_invalid_characters_strips_and_idempotent sceneC6 (by decide) (by decide)

/-! Claim C1: the iterated initializer keeps exactly one surfacing root.
Root-counting machinery: every stage of validate_scene preserves the number
of root-marked grouping nodes. -/

/-- The combined root test of get_project_root: objectSet type plus marker. -/
def isRootNode (n : Node) : Bool :=
  decide (n.ntype = NType.objectSet) && hasAttr n SURFACING_ROOT

theorem rootNodes_length_countP (s : Scene) :
    (rootNodes s).length = s.nodes.countP isRootNode := by
  unfold rootNodes lsType isRootNode
  rw [← List.countP_eq_length_filter, List.countP_filter]
  refine List.countP_congr (fun x _ => ?_)
  show (hasAttr x SURFACING_ROOT && decide (x.ntype = NType.objectSet)) = true ↔ (decide (x.ntype = NType.objectSet) && hasAttr x SURFACING_ROOT) = true
  rw [Bool.and_comm]

theorem rootLen_updateNode (s : Scene) (i : Nat) (f : Node → Node)
    (hty : ∀ x, (f x).ntype = x.ntype)
    (hattr : ∀ x, hasAttr (f x) SURFACING_ROOT = hasAttr x SURFACING_ROOT) :
    (rootNodes (updateNode s i f)).length = (rootNodes s).length := by
  rw [rootNodes_length_countP, rootNodes_length_countP]
  show (s.nodes.map (fun n => if n.nid = i then f n else n)).countP isRootNode = _
  rw [List.countP_map]
  refine List.countP_congr (fun x _ => ?_)
  show isRootNode (if x.nid = i then f x else x) = true ↔ isRootNode x = true
  by_cases hx : x.nid = i
  · rw [if_pos hx]
    unfold isRootNode
    rw [hty, hattr]
  · rw [if_neg hx]

theorem rootLen_deleteNode (s : Scene) (d : Nat)
    (hcond : ∀ n ∈ s.nodes, n.nid = d → isRootNode n = false) :
    (rootNodes (deleteNode s d)).length = (rootNodes s).length := by
  rw [rootNodes_length_countP, rootNodes_length_countP]
  show ((s.nodes.filter (fun n => decide (n.nid ≠ d))).map (purgeMember d)).countP isRootNode = _
  rw [List.countP_map]
  rw [List.countP_congr (fun x hx => show (isRootNode ∘ purgeMember d) x = true ↔ isRootNode x = true from Iff.rfl)]
  rw [List.countP_filter]
  refine List.countP_congr (fun x hx => ?_)
  show (isRootNode x && decide (x.nid ≠ d)) = true ↔ isRootNode x = true
  constructor
  · intro h
    exact (Bool.and_eq_true _ _ ▸ h).1
  · intro h
    have hnd : x.nid ≠ d := by
      intro he
      rw [hcond x hx he] at h
      cases h
    rw [h, decide_eq_true hnd]
    rfl

theorem any_key_map_set (l : List (String × String)) (a v b : String) (hne : a ≠ b) :
    (l.map (fun p => if p.1 = a then (a, v) else p)).any (fun p => decide (p.1 = b)) = l.any (fun p => decide (p.1 = b)) := by
  induction l with
  | nil => rfl
  | cons x xs ih =>
    simp only [List.map_cons, List.any_cons]
    rw [ih]
    by_cases hx : x.1 = a
    · rw [if_pos hx]
      have h1 : decide ((a, v).1 = b) = false := by simp [hne]
      have h2 : decide (x.1 = b) = false := by simp [hx, hne]
      rw [h1, h2]
    · rw [if_neg hx]

theorem any_key_setAttrList (l : List (String × String)) (a v b : String) (hne : a ≠ b) :
    (setAttrList l a v).any (fun p => decide (p.1 = b)) = l.any (fun p => decide (p.1 = b)) := by
  unfold setAttrList
  by_cases hc : l.any (fun p => decide (p.1 = a)) = true
  · rw [if_pos hc]
    exact any_key_map_set l a v b hne
  · rw [if_neg hc]
    rw [List.any_append]
    have h1 : ([(a, v)].any fun p => decide (p.1 = b)) = false := by simp [hne]
    rw [h1, Bool.or_false]

theorem rootLen_setAttrForce (s : Scene) (i : Nat) (a v : String)
    (hne : a ≠ SURFACING_ROOT) :
    (rootNodes (setAttrForce s i a v)).length = (rootNodes s).length := by
  show (rootNodes (updateNode s i (fun n => { n with attrs := setAttrList n.attrs a v }))).length = _
  rw [rootLen_updateNode s i (fun n => { n with attrs := setAttrList n.attrs a v }) (fun x => rfl) (fun x => any_key_setAttrList x.attrs a v SURFACING_ROOT hne)]

theorem rootLen_removeMember (s : Scene) (i j : Nat) :
    (rootNodes (removeMember s i j)).length = (rootNodes s).length := by
  show (rootNodes (updateNode s i (fun n => { n with members := n.members.filter (fun m => decide (m ≠ j)) }))).length = _
  rw [rootLen_updateNode s i (fun n => { n with members := n.members.filter (fun m => decide (m ≠ j)) }) (fun x => rfl) (fun x => rfl)]

theorem rootNodes_withConns (s : Scene) (c : List (Nat × Nat)) :
    rootNodes (withConns s c) = rootNodes s := rfl

theorem bind_some_inv {α β : Type} {x : Option α} {f : α → Option β} {b : β}
    (h : x.bind f = some b) : ∃ a, x = some a ∧ f a = some b := by
  cases hx : x with
  | none =>
    rw [hx] at h
    cases h
  | some a =>
    rw [hx] at h
    exact ⟨a, rfl, h⟩

theorem setAttr_some {s : Scene} {i : Nat} {a v : String} {s2 : Scene}
    (h : setAttr s i a v = some s2) : s2 = setAttrForce s i a v := by
  unfold setAttr at h
  cases hf : findNode s i with
  | none =>
    rw [hf] at h
    cases h
  | some n =>
    rw [hf] at h
    replace h : (if hasAttr n a = true then some (setAttrForce s i a v) else none) = some s2 := h
    by_cases hA : hasAttr n a = true
    · rw [if_pos hA] at h
      exact (Option.some.inj h).symm
    · rw [if_neg hA] at h
      cases h

theorem foldlM_preserve {β : Type} (f : Scene → β → Option Scene) (P : Scene → Prop)
    (hstep : ∀ a x s2, P a → f a x = some s2 → P s2) :
    ∀ (l : List β) (a : Scene) (s2 : Scene), P a → l.foldlM f a = some s2 → P s2 := by
  intro l
  induction l with
  | nil =>
    intro a s2 hP h
    replace h : some a = some s2 := h
    rw [← Option.some.inj h]
    exact hP
  | cons x xs ih =>
    intro a s2 hP h
    replace h : (f a x).bind (fun a2 => xs.foldlM f a2) = some s2 := h
    obtain ⟨a2, ha2, h2⟩ := bind_some_inv h
    exact ih a2 s2 (hstep a x a2 hP ha2) h2

/-! Per-stage preservation lemmas for claim C1. -/

theorem gpr_stage {s t : Scene} {i : Nat} (hwf : SceneWF s)
    (h : get_project_root s = some (t, i)) :
    SceneWF t ∧ (rootNodes t).length = 1 := by
  unfold get_project_root at h
  cases hr : rootNodes s with
  | nil =>
    rw [hr] at h
    replace h : some (create_project_root_node s) = some (t, i) := h
    have he := Option.some.inj h
    have ht : (create_project_root_node s).1 = t := congrArg Prod.fst he
    constructor
    · rw [← ht]
      exact SceneWF_setAttrForce (SceneWF_createNode hwf)
    · rw [← ht, create_project_root_node_eq s hwf]
      show (rootNodes { nodes := s.nodes ++ [rootNodeAt s.nextId], nextId := s.nextId + 1, conns := s.conns }).length = 1
      rw [rootNodes_shape s.nodes [rootNodeAt s.nextId] (s.nextId + 1) 0 0 s.conns [] [], rootNodes_nodes s 0 [], hr]
      rfl
  | cons r tail =>
    cases tail with
    | nil =>
      rw [hr] at h
      replace h : some (s, r.nid) = some (t, i) := h
      have he := Option.some.inj h
      have ht : s = t := congrArg Prod.fst he
      rw [← ht]
      refine ⟨hwf, ?_⟩
      rw [hr]
      rfl
    | cons b t2 =>
      rw [hr] at h
      replace h : (none : Option (Scene × Nat)) = some (t, i) := h
      cases h

theorem cpr_stage {s t : Scene} {i : Nat} (hwf : SceneWF s)
    (h : create_project_root s = some (t, i)) :
    SceneWF t ∧ (rootNodes t).length = 1 := by
  replace h : (get_project_root s).bind (fun r => get_project_root r.1) = some (t, i) := h
  obtain ⟨rt, hrt, h2⟩ := bind_some_inv h
  obtain ⟨hwf1, hlen1⟩ := gpr_stage hwf (show get_project_root s = some (rt.1, rt.2) from hrt)
  exact gpr_stage hwf1 h2

theorem rchars_stage {s t : Scene} (hwf : SceneWF s)
    (h : remove_invalid_characters s = some t) :
    SceneWF t ∧ (rootNodes t).length = 1 := by
  replace h : (get_project_root s).bind (fun rt => some ((get_projects rt.1).foldl (fun a p => (get_objects (renameStep a p.nid) p.nid).foldl (fun a2 o => renameStep a2 o.nid) (renameStep a p.nid)) rt.1)) = some t := h
  obtain ⟨rt, hrt, h2⟩ := bind_some_inv h
  obtain ⟨hwf1, hlen1⟩ := gpr_stage hwf (show get_project_root s = some (rt.1, rt.2) from hrt)
  obtain ⟨φ', hfold, hmono, hps⟩ := outer_fold_clean rt.1 (get_projects rt.1) (fun i => nameOf rt.1 i)
  rw [mapNames_self hwf1] at hfold
  have ht : t = mapNames φ' rt.1 := by
    rw [hfold] at h2
    exact (Option.some.inj h2).symm
  rw [ht]
  refine ⟨SceneWF_mapNames φ' hwf1, ?_⟩
  rw [rootNodes_mapNames, List.length_map]
  exact hlen1

theorem rm_preserve {a : Scene} (i j : Nat)
    (h : SceneWF a ∧ (rootNodes a).length = 1) :
    SceneWF (removeMember a i j) ∧ (rootNodes (removeMember a i j)).length = 1 := by
  refine ⟨SceneWF_removeMember h.1, ?_⟩
  rw [rootLen_removeMember]
  exact h.2

theorem prune_preserve {a : Scene} (oid : Nat)
    (h : SceneWF a ∧ (rootNodes a).length = 1) :
    SceneWF (pruneObjectMembers a oid) ∧ (rootNodes (pruneObjectMembers a oid)).length = 1 := by
  unfold pruneObjectMembers
  refine foldl_invariant (fun a2 => SceneWF a2 ∧ (rootNodes a2).length = 1) _ _ _ ?_ h
  intro a2 x _ hA
  by_cases hc1 : decide (x.ntype ≠ NType.transform) = true
  · rw [if_pos hc1]
    exact rm_preserve oid x.nid hA
  · rw [if_neg hc1]
    by_cases hc2 : (!hasMeshChild a2 x.nid) = true
    · rw [if_pos hc2]
      exact rm_preserve oid x.nid hA
    · rw [if_neg hc2]
      exact hA

theorem rmembers_stage {s t : Scene} (hwf : SceneWF s)
    (h : remove_invalid_members s = some t) :
    SceneWF t ∧ (rootNodes t).length = 1 := by
  replace h : (get_project_root s).bind (fun rt => some ((get_projects ((membersOf rt.1 rt.2).foldl (fun a m => if decide (m.ntype ≠ NType.objectSet) then removeMember a rt.2 m.nid else a) rt.1)).foldl (fun a p => (get_objects a p.nid).foldl (fun a2 o => if decide (o.ntype ≠ NType.objectSet) then removeMember a2 p.nid o.nid else pruneObjectMembers a2 o.nid) a) ((membersOf rt.1 rt.2).foldl (fun a m => if decide (m.ntype ≠ NType.objectSet) then removeMember a rt.2 m.nid else a) rt.1))) = some t := h
  obtain ⟨rt, hrt, h2⟩ := bind_some_inv h
  obtain ⟨hwf1, hlen1⟩ := gpr_stage hwf (show get_project_root s = some (rt.1, rt.2) from hrt)
  have hP1 : SceneWF ((membersOf rt.1 rt.2).foldl (fun a m => if decide (m.ntype ≠ NType.objectSet) then removeMember a rt.2 m.nid else a) rt.1) ∧ (rootNodes ((membersOf rt.1 rt.2).foldl (fun a m => if decide (m.ntype ≠ NType.objectSet) then removeMember a rt.2 m.nid else a) rt.1)).length = 1 := by
    refine foldl_invariant (fun a2 => SceneWF a2 ∧ (rootNodes a2).length = 1) _ _ _ ?_ ⟨hwf1, hlen1⟩
    intro a2 x _ hA
    by_cases hc : decide (x.ntype ≠ NType.objectSet) = true
    · rw [if_pos hc]
      exact rm_preserve rt.2 x.nid hA
    · rw [if_neg hc]
      exact hA
  have hP2 := foldl_invariant (fun a2 => SceneWF a2 ∧ (rootNodes a2).length = 1) (fun a p => (get_objects a p.nid).foldl (fun a2 o => if decide (o.ntype ≠ NType.objectSet) then removeMember a2 p.nid o.nid else pruneObjectMembers a2 o.nid) a) (get_projects ((membersOf rt.1 rt.2).foldl (fun a m => if decide (m.ntype ≠ NType.objectSet) then removeMember a rt.2 m.nid else a) rt.1)) ((membersOf rt.1 rt.2).foldl (fun a m => if decide (m.ntype ≠ NType.objectSet) then removeMember a rt.2 m.nid else a) rt.1) ?_ hP1
  · have ht : t = ((get_projects ((membersOf rt.1 rt.2).foldl (fun a m => if decide (m.ntype ≠ NType.objectSet) then removeMember a rt.2 m.nid else a) rt.1)).foldl (fun a p => (get_objects a p.nid).foldl (fun a2 o => if decide (o.ntype ≠ NType.objectSet) then removeMember a2 p.nid o.nid else pruneObjectMembers a2 o.nid) a) ((membersOf rt.1 rt.2).foldl (fun a m => if decide (m.ntype ≠ NType.objectSet) then removeMember a rt.2 m.nid else a) rt.1)) := (Option.some.inj h2).symm
    rw [ht]
    exact hP2
  · intro a2 p _ hA
    refine foldl_invariant (fun a3 => SceneWF a3 ∧ (rootNodes a3).length = 1) _ _ _ ?_ hA
    intro a3 o _ hA2
    by_cases hc : decide (o.ntype ≠ NType.objectSet) = true
    · rw [if_pos hc]
      exact rm_preserve p.nid o.nid hA2
    · rw [if_neg hc]
      exact prune_preserve o.nid hA2

theorem SceneWF_upShape {s : Scene} (hwf : SceneWF s) : SceneWF (upShape s) := by
  have h1 := SceneWF_setAttrForce
    (s := (createNode (deleteMarkedPartitions s) NType.partition SURFACING_PARTITION).1)
    (i := (createNode (deleteMarkedPartitions s) NType.partition SURFACING_PARTITION).2)
    (a := SURFACING_PARTITION) (v := "")
    (SceneWF_createNode (t := NType.partition) (m := SURFACING_PARTITION) (SceneWF_deleteMarked hwf))
  rw [setAttrForce_createNode _ _ _ _ _ (SceneWF_deleteMarked hwf)] at h1
  rw [deleteMarked_nextId, markedNodeAt_part] at h1
  exact h1

theorem rootLen_deleteMarked (s : Scene) (hwf : SceneWF s) :
    (rootNodes (deleteMarkedPartitions s)).length = (rootNodes s).length := by
  unfold deleteMarkedPartitions
  have hinv := foldl_invariant (fun a => (∀ n ∈ a.nodes, n.nid ∈ (markedPartitions s).map Node.nid → isRootNode n = false) ∧ (rootNodes a).length = (rootNodes s).length)
    (fun s2 p => deleteNode (disconnectSets s2 p.nid) p.nid) (markedPartitions s) s ?_ ⟨?_, rfl⟩
  · exact hinv.2
  · intro a x hx hA
    constructor
    · intro n hn hc
      have hn' : n ∈ (a.nodes.filter (fun n2 => decide (n2.nid ≠ x.nid))).map (purgeMember x.nid) := hn
      obtain ⟨b, hbf, rfl⟩ := List.mem_map.1 hn'
      have hbmem : b ∈ a.nodes := List.mem_of_mem_filter hbf
      exact hA.1 b hbmem hc
    · have hcond : ∀ n ∈ (disconnectSets a x.nid).nodes, n.nid = x.nid → isRootNode n = false := by
        intro n hn he
        refine hA.1 n hn ?_
        rw [he]
        exact List.mem_map_of_mem Node.nid hx
      rw [rootLen_deleteNode _ _ hcond]
      have he2 : rootNodes (disconnectSets a x.nid) = rootNodes a :=
        rootNodes_nodes a a.nextId (a.conns.filter (fun c => decide (c.2 ≠ x.nid)))
      rw [he2]
      exact hA.2
  · intro n hn hc
    obtain ⟨p, hp, hpn⟩ := List.mem_map.1 hc
    have hmk := (mem_markedPartitions.1 hp).2
    have hpmem := (mem_markedPartitions.1 hp).1
    have hnp : n = p := List.inj_on_of_nodup_map hwf.1 hn hpmem hpn.symm
    have hpty : p.ntype = NType.partition := by
      unfold isMarkedPart at hmk
      rw [Bool.and_eq_true] at hmk
      exact of_decide_eq_true hmk.1
    rw [hnp]
    unfold isRootNode
    rw [hpty]
    rfl

theorem up_stage {s t : Scene} (hwf : SceneWF s) (hlen : (rootNodes s).length = 1)
    (h : update_partition s = some t) :
    SceneWF t ∧ (rootNodes t).length = 1 := by
  have hshape := update_partition_some_shape hwf h
  have hwfU : SceneWF (upShape s) := SceneWF_upShape hwf
  constructor
  · rw [hshape]
    refine SceneWF_connsAppendList hwfU ?_
    intro c hc
    obtain ⟨o, ho, rfl⟩ := List.mem_map.1 hc
    refine ⟨objectIdList_bound hwfU o ho, ?_⟩
    show s.nextId < (upShape s).nextId
    show s.nextId < s.nextId + 1
    omega
  · rw [hshape]
    rw [rootNodes_withConns]
    show (rootNodes { nodes := (deleteMarkedPartitions s).nodes ++ [partNodeAt s.nextId], nextId := s.nextId + 1, conns := (deleteMarkedPartitions s).conns }).length = 1
    rw [rootNodes_shape (deleteMarkedPartitions s).nodes [partNodeAt s.nextId] (s.nextId + 1) 0 0 (deleteMarkedPartitions s).conns [] []]
    rw [rootNodes_nodes (deleteMarkedPartitions s) 0 []]
    rw [List.length_append]
    rw [rootLen_deleteMarked s hwf, hlen]
    rfl

theorem umesh_stage {s t : Scene} (h : update_mesh_attributes s = some t)
    (hP : SceneWF s ∧ (rootNodes s).length = 1) :
    SceneWF t ∧ (rootNodes t).length = 1 := by
  have hPROJ : ATTR_SURFACING_PROJECT ≠ SURFACING_ROOT := by decide
  have hOBJ : ATTR_SURFACING_OBJECT ≠ SURFACING_ROOT := by decide
  have hforce : ∀ (a : Scene) (i : Nat) (at2 v : String), at2 ≠ SURFACING_ROOT →
      SceneWF a ∧ (rootNodes a).length = 1 →
      SceneWF (setAttrForce a i at2 v) ∧ (rootNodes (setAttrForce a i at2 v)).length = 1 := by
    intro a i at2 v hne hA
    refine ⟨SceneWF_setAttrForce hA.1, ?_⟩
    rw [rootLen_setAttrForce a i at2 v hne]
    exact hA.2
  refine foldlM_preserve _ (fun a => SceneWF a ∧ (rootNodes a).length = 1) ?_ (get_projects s) s t hP h
  intro a p s2 hPa hstep
  replace hstep : (setAttr a p.nid ATTR_SURFACING_PROJECT (nameOf a p.nid)).bind (fun s1 => (get_objects s1 p.nid).foldlM (fun s2 o => (setAttr s2 o.nid ATTR_SURFACING_OBJECT (nameOf s2 o.nid)).bind (fun s3 => (membersOf s3 o.nid).foldlM (fun s4 m => some (setAttrForce (setAttrForce s4 m.nid ATTR_SURFACING_PROJECT (nameOf s4 p.nid)) m.nid ATTR_SURFACING_OBJECT (nameOf (setAttrForce s4 m.nid ATTR_SURFACING_PROJECT (nameOf s4 p.nid)) o.nid))) s3)) s1) = some s2 := hstep
  obtain ⟨s1, hs1, h2⟩ := bind_some_inv hstep
  have hP1 : SceneWF s1 ∧ (rootNodes s1).length = 1 := by
    rw [setAttr_some hs1]
    exact hforce a p.nid ATTR_SURFACING_PROJECT (nameOf a p.nid) hPROJ hPa
  refine foldlM_preserve _ (fun a2 => SceneWF a2 ∧ (rootNodes a2).length = 1) ?_ (get_objects s1 p.nid) s1 s2 hP1 h2
  intro a2 o s3out hPa2 hso
  replace hso : (setAttr a2 o.nid ATTR_SURFACING_OBJECT (nameOf a2 o.nid)).bind (fun s3 => (membersOf s3 o.nid).foldlM (fun s4 m => some (setAttrForce (setAttrForce s4 m.nid ATTR_SURFACING_PROJECT (nameOf s4 p.nid)) m.nid ATTR_SURFACING_OBJECT (nameOf (setAttrForce s4 m.nid ATTR_SURFACING_PROJECT (nameOf s4 p.nid)) o.nid))) s3) = some s3out := hso
  obtain ⟨s3, hs3, h3⟩ := bind_some_inv hso
  have hP3 : SceneWF s3 ∧ (rootNodes s3).length = 1 := by
    rw [setAttr_some hs3]
    exact hforce a2 o.nid ATTR_SURFACING_OBJECT (nameOf a2 o.nid) hOBJ hPa2
  refine foldlM_preserve _ (fun a3 => SceneWF a3 ∧ (rootNodes a3).length = 1) ?_ (membersOf s3 o.nid) s3 s3out hP3 h3
  intro a4 m s5out hPa4 hm
  replace hm : some (setAttrForce (setAttrForce a4 m.nid ATTR_SURFACING_PROJECT (nameOf a4 p.nid)) m.nid ATTR_SURFACING_OBJECT (nameOf (setAttrForce a4 m.nid ATTR_SURFACING_PROJECT (nameOf a4 p.nid)) o.nid)) = some s5out := hm
  rw [← Option.some.inj hm]
  exact hforce _ m.nid ATTR_SURFACING_OBJECT _ hOBJ (hforce a4 m.nid ATTR_SURFACING_PROJECT (nameOf a4 p.nid) hPROJ hPa4)

theorem surfacingInit_stage {s t : Scene} (hwf : SceneWF s)
    (h : surfacingInit s = some t) : SceneWF t ∧ (rootNodes t).length = 1 := by
  replace h : (create_project_root s).bind (fun r => validate_scene r.1) = some t := h
  obtain ⟨rt, hrt, h2⟩ := bind_some_inv h
  obtain ⟨hwf1, hlen1⟩ := cpr_stage hwf (show create_project_root s = some (rt.1, rt.2) from hrt)
  replace h2 : (remove_invalid_characters rt.1).bind (fun s1 => (remove_invalid_members s1).bind (fun s2 => (update_partition s2).bind (fun s3 => update_mesh_attributes s3))) = some t := h2
  obtain ⟨s1, ha, hb⟩ := bind_some_inv h2
  obtain ⟨hwfa, hlena⟩ := rchars_stage hwf1 ha
  obtain ⟨s2, hc, hd⟩ := bind_some_inv hb
  obtain ⟨hwfc, hlenc⟩ := rmembers_stage hwfa hc
  obtain ⟨s3, he2, hf2⟩ := bind_some_inv hd
  obtain ⟨hwfe, hlene⟩ := up_stage hwfc hlenc he2
  exact umesh_stage hf2 ⟨hwfe, hlene⟩

/-- Claim C1: running the scene initializer any positive number of times,
starting from a well-formed scene with at most one surfacing_root node,
leaves exactly one surfacing_root node in the scene whenever the runs
succeed; repeated runs never create a second root. -/
theorem surfacingInit_iterated_single_root (n : Nat) :
    ∀ (s : Scene), SceneWF s → (rootNodes s).length ≤ 1 →
      ∀ s', iterInit (n + 1) s = some s' → (rootNodes s').length = 1 := by
  induction n with
  | zero =>
    intro s hwf hroot s' h
    replace h : (surfacingInit s).bind (iterInit 0) = some s' := h
    obtain ⟨t, ht, h2⟩ := bind_some_inv h
    replace h2 : some t = some s' := h2
    rw [← Option.some.inj h2]
    exact (surfacingInit_stage hwf ht).2
  | succ m ih =>
    intro s hwf hroot s' h
    replace h : (surfacingInit s).bind (iterInit (m + 1)) = some s' := h
    obtain ⟨t, ht, h2⟩ := bind_some_inv h
    obtain ⟨hwft, hlent⟩ := surfacingInit_stage hwf ht
    exact ih t hwft (Nat.le_of_eq hlent) s' h2

/-- Witness for claim C1: two initializer runs on the empty scene leave
exactly one surfacing root. -/
theorem surfacingInit_iterated_single_root_witness :
    SceneWF sceneEmpty ∧ (rootNodes sceneEmpty).length ≤ 1 ∧
    iterInit 2 sceneEmpty = some ((iterInit 2 sceneEmpty).getD sceneEmpty) ∧
    (rootNodes ((iterInit 2 sceneEmpty).getD sceneEmpty)).length = 1 :=
  ⟨by decide, by decide, by rfl,
    surfacingInit_iterated_single_root 1 sceneEmpty (by decide) (by decide)
      ((iterInit 2 sceneEmpty).getD sceneEmpty) (by rfl)⟩
